import Mathlib

/-!
Verification of the shelter reconciliation engine
(`sync_shelters_graphql.py`) against its natural-language specification.

The engine scans a cursor-paginated upstream registry, classifies each
upstream record against a snapshot of local state, queues bounded-size
batched upserts, persists a resume cursor after each page, and — only
after a trustworthy complete scan — soft-deletes local records no longer
present upstream.

Modelling conventions:
- Python dicts with optional keys become structures of `Option` fields,
  where `none` means "key absent / value null".
- The ambient standard library clock and ISO-timestamp parser
  (`datetime.utcnow`, `datetime.fromisoformat`) are passed explicitly in
  a `ScanEnv`: `now` is the current UTC time in seconds and `parse`
  maps a (19-character) timestamp string to a time in seconds, `none`
  modelling a `ValueError`.
- The address-lookup HTTP collaborator (`fetch_address_data`) is the
  `addrLookup` field of `ScanEnv`; the Supabase write collaborator is a
  `WriteEnv` of success/failure oracles.  Both are external services in
  the spec's sense.
- Machine integers are `Int`/`Nat` (Python ints are unbounded, so no
  wrap-around modelling is needed).
-/

namespace ShelterSync

/-- GeoJSON location payload, carried as an uninterpreted value. -/
abbrev Location := String

/-- One row of the local Snapshot, as built by `fetch_existing_state`
(keyed elsewhere by `bygning_id`): internal primary key `id`, capacity,
soft-deletion flag (`item.get('deleted') is not None`), the two
timestamps, location, usage code and municipality code. -/
structure SnapEntry where
  id : Int
  capacity : Option Int
  deleted : Bool
  last_checked : Option String
  last_address_checked : Option String
  location : Option Location
  anvendelse : Option String
  kommunekode : Option String
deriving DecidableEq

/-- One upstream GraphQL node.  `byg069Sikringsrumpladser` is `some c`
when Python's `int(cap_val)` succeeds with value `c`, and `none` when
the field is null or non-numeric (where `int()` raises and the record
is skipped). -/
structure Node where
  id_lokalId : String
  byg069Sikringsrumpladser : Option Int
  byg021BygningensAnvendelse : Option String
  kommunekode : Option String
  husnummer : Option String
deriving DecidableEq

/-- Result of the DAWA address lookup (`fetch_address_data`): each field
`none` when the service returned no value (including the whole-result
`\x7b\x7d` case). -/
structure AddrData where
  address : Option String
  vejnavn : Option String
  husnummer : Option String
  postnummer : Option String
  location : Option Location
deriving DecidableEq

/-- The empty lookup result, Python `\x7b\x7d`. -/
def emptyAddr : AddrData :=
  { address := none, vejnavn := none, husnummer := none,
    postnummer := none, location := none }

/-- A queued upsert payload (`record_update` dict).  `none` on an
optional field means the key is absent from the dict; `deleted? = some
none` means the key `deleted` is present with value null (the explicit
clear of the soft-delete marker). -/
structure QueuedWrite where
  action? : Option String
  deleted? : Option (Option String)
  bygning_id : String
  shelter_capacity : Int
  anvendelse : Option String
  kommunekode : Option String
  last_checked : String
  last_seen_at : String
  last_address_checked? : Option String
  address? : Option String
  postnummer? : Option String
  vejnavn? : Option String
  husnummer? : Option String
  location? : Option Location
deriving DecidableEq

/-- Tuning constants (environment-derived in the source).
`MIN_DELETE_COVERAGE` is the exact rational `covNum / covDen`
(`0.8` is `8 / 10`; for realistic snapshot sizes the source's float
product `active * 0.8` truncates to the same integer as the exact
rational computation, cf. `min_seen_required`). -/
structure Config where
  BATCH_SIZE : Nat
  ADDRESS_REFRESH_DAYS : Int
  SAFE_THRESHOLD : Nat
  covNum : Nat
  covDen : Nat
  MAX_GRAPHQL_RETRIES : Nat
deriving DecidableEq

/-- Ambient capabilities of one scan run: the clock (`now`, UTC seconds),
the timestamp parser (`datetime.fromisoformat` on a 19-character
prefix; `none` models `ValueError`), the address-lookup service and
the run timestamp string `run_ts`. -/
structure ScanEnv where
  now : Int
  parse : String → Option Int
  addrLookup : Option String → AddrData
  run_ts : String

/-- Python truthiness of an optional string: `None` and `""` are falsy. -/
def strTruthy : Option String → Bool
  | none => false
  | some s => !(s == "")

/-- Python `a or b` on optional strings. -/
def pyOrStr (a b : Option String) : Option String :=
  if strTruthy a then a else b

/-- Model of `should_refresh_address` (source lines 187-204): choose
`last_address_checked_str or last_checked_str`; a falsy choice forces a
refresh; a `ValueError` from parsing the first 19 characters forces a
refresh; otherwise refresh iff `(utcnow() - parsed).days` exceeds
`ADDRESS_REFRESH_DAYS`.  `timedelta.days` is floor division of the
difference in seconds by 86400, which for the positive divisor 86400
is `Int` division `/` (Euclidean division equals floor division when
the divisor is positive). -/
def should_refresh_address (env : ScanEnv) (cfg : Config)
    (last_address_checked_str last_checked_str : Option String) : Bool :=
  match pyOrStr last_address_checked_str last_checked_str with
  | none => true
  | some s =>
    if s == "" then true
    else
      match env.parse (s.take 19) with
      | none => true
      | some t => decide ((env.now - t) / 86400 > cfg.ADDRESS_REFRESH_DAYS)

/-- Classification assigned to one capacity-valid upstream record. -/
inductive Classification
  | new
  | restored
  | updated
  | addressRefresh
  | unchanged
deriving DecidableEq

/-- The classifier decision ladder (source lines 401-452): absent from
snapshot, else soft-deleted, else core-field drift
(capacity / anvendelse / kommunekode), else stale-or-missing address,
else unchanged. -/
def classify (env : ScanEnv) (cfg : Config) (capacity : Int)
    (incoming_anvendelse incoming_kommunekode : Option String)
    (curr : Option SnapEntry) : Classification :=
  match curr with
  | none => .new
  | some c =>
    if c.deleted then .restored
    else if c.capacity ≠ some capacity ∨ c.anvendelse ≠ incoming_anvendelse
        ∨ c.kommunekode ≠ incoming_kommunekode then .updated
    else if should_refresh_address env cfg c.last_address_checked c.last_checked = true
        ∨ c.location = none then .addressRefresh
    else .unchanged

/-- The `needs_address` flag as set along the branches of the source ladder. -/
def needs_address : Classification → Bool
  | .new => true
  | .restored => true
  | .updated => false
  | .addressRefresh => true
  | .unchanged => false

/-- Render an optional timestamp the way a Python f-string renders it. -/
def optTsStr : Option String → String
  | none => "None"
  | some s => s

/-- The `action` log string built in each branch of the ladder
(the `.unchanged` case keeps the initial `"none"`; the `.addressRefresh`
case with no snapshot entry is unreachable). -/
def actionString (capacity : Int) (curr : Option SnapEntry) :
    Classification → String
  | .new => "new (Cap: " ++ toString capacity ++ ")"
  | .restored => "restored (was deleted)"
  | .updated => "updated (capacity/anvendelse/kommunekode changed)"
  | .addressRefresh =>
    match curr with
    | some c =>
      let reason := if c.location = none then "missing_loc" else "stale"
      "refresh_addr (" ++ reason ++ ", last: "
        ++ optTsStr (pyOrStr c.last_address_checked c.last_checked) ++ ")"
    | none => ""
  | .unchanged => "none"

/-- Does the first character list start with the second? -/
def charsStartWith : List Char → List Char → Bool
  | _, [] => true
  | [], _ :: _ => false
  | c :: cs, d :: ds => c == d && charsStartWith cs ds

/-- Does the first character list contain the second as a contiguous
run? -/
def charsContains : List Char → List Char → Bool
  | [], sub => charsStartWith [] sub
  | s@(_ :: rest), sub => charsStartWith s sub || charsContains rest sub

/-- Python substring test `sub in s`. -/
def strContains (s sub : String) : Bool := charsContains s.data sub.data

/-- Which upsert queue a write enters. -/
inductive QueueKind
  | fullWrite
  | coreWrite
deriving DecidableEq

/-- Build the queued upsert for one classified record (source lines
454-490): `none` for an unchanged record (no upsert); otherwise the
record goes to the full queue (with enrichment data and
`last_address_checked`) when `"new" in action or needs_address`, and to
the core queue otherwise.  A restored record's write carries
`deleted? = some none`, the explicit clear of the soft-delete marker. -/
def classifyAndBuild (env : ScanEnv) (cfg : Config) (node : Node)
    (capacity : Int) (curr : Option SnapEntry) :
    Option (QueueKind × QueuedWrite) :=
  let cls := classify env cfg capacity node.byg021BygningensAnvendelse
    node.kommunekode curr
  if cls = .unchanged then none
  else
    let act := actionString capacity curr cls
    let deletedUpd : Option (Option String) :=
      if cls = .restored then some none else none
    if strContains act "new" || needs_address cls then
      let addr := env.addrLookup node.husnummer
      some (.fullWrite,
        { action? := some act
          deleted? := deletedUpd
          bygning_id := node.id_lokalId
          shelter_capacity := capacity
          anvendelse := node.byg021BygningensAnvendelse
          kommunekode := node.kommunekode
          last_checked := env.run_ts
          last_seen_at := env.run_ts
          last_address_checked? := some env.run_ts
          address? := addr.address
          postnummer? := addr.postnummer
          vejnavn? := addr.vejnavn
          husnummer? := addr.husnummer
          location? := addr.location })
    else
      some (.coreWrite,
        { action? := some act
          deleted? := deletedUpd
          bygning_id := node.id_lokalId
          shelter_capacity := capacity
          anvendelse := node.byg021BygningensAnvendelse
          kommunekode := node.kommunekode
          last_checked := env.run_ts
          last_seen_at := env.run_ts
          last_address_checked? := none
          address? := none
          postnummer? := none
          vejnavn? := none
          husnummer? := none
          location? := none })

/-- Minimal rescue payload (`minimal_item`, source lines 666-674): only
the external id, capacity, `last_checked`, an explicit `deleted = null`,
and nulled-out foreign-key fields `anvendelse` / `kommunekode`. -/
structure MinimalItem where
  bygning_id : String
  shelter_capacity : Int
  last_checked : String
  deleted : Option String
  anvendelse : Option String
  kommunekode : Option String
deriving DecidableEq

/-- Build the rescue payload from a queued record. -/
def minimal_item (item : QueuedWrite) : MinimalItem :=
  { bygning_id := item.bygning_id
    shelter_capacity := item.shelter_capacity
    last_checked := item.last_checked
    deleted := none
    anvendelse := none
    kommunekode := none }

/-- Drop the transient `_action` key before posting a batch
(`cleaned_batch` construction in `upsert_to_supabase`). -/
def clearAction (w : QueuedWrite) : QueuedWrite := { w with action? := none }

/-- Outcome of one individual post (`requests.post` on `[item]` followed
by `raise_for_status`, source lines 659-660).  `ok` is a 2xx response;
`httpError` is a returned response whose `raise_for_status` raises — the
response variable `r_single` gets BOUND; `raised` is `requests.post`
itself raising (connection error, timeout) — `r_single` is NOT bound by
this iteration.  The distinction matters because the rescue-failure
handler at source line 681 reads `r_single` unguarded. -/
inductive SingleOutcome
  | ok
  | httpError
  | raised
deriving DecidableEq

/-- Success/failure oracles for the three kinds of Supabase POSTs made by
`upsert_to_supabase`: the whole-batch post (of cleaned records), the
per-record post (of the raw record, `_action` included, as in the
source), and the minimal rescue post.  (The batch post's own failure
mode is immaterial: its handler guards the response variable with
`'r' in locals()` at source line 651.  The rescue post's failure mode is
immaterial too: `r_min` is never read afterwards.) -/
structure WriteEnv where
  batchOk : List QueuedWrite → Bool
  singleOutcome : QueuedWrite → SingleOutcome
  rescueOk : MinimalItem → Bool

/-- One HTTP write attempted by `upsert_to_supabase` (for a `singlePost`
with outcome `raised`, the call was made even though no response came
back). -/
inductive UpsertAttempt
  | batchPost (payload : List QueuedWrite)
  | singlePost (payload : QueuedWrite)
  | rescuePost (payload : MinimalItem)
deriving DecidableEq

/-- What one call of `upsert_to_supabase` did: the posts it attempted,
the ids logged as unrecoverable (source line 680), and whether the
call raised — the `UnboundLocalError` from the unguarded `r_single`
read at source line 681 — instead of returning. -/
structure UpsertResult where
  attempts : List UpsertAttempt
  unrecoverable : List String
  crashed : Bool
deriving DecidableEq

/-- The one-by-one fallback loop of `upsert_to_supabase` (source lines
656-682).  `rBound` tracks whether `r_single` has been bound by some
earlier individual post of this call (line 659 binds it whenever
`requests.post` returns, even when `raise_for_status` then raises).
Per item: a successful post moves on; a failed post triggers the
minimal rescue; a failed rescue logs the record unrecoverable and —
when the individual post raised without a response and none was ever
bound — the handler's `r_single` read at line 681 raises
`UnboundLocalError`, aborting the loop with the remaining records
unattempted. -/
def fallbackLoop (wenv : WriteEnv) : Bool → List QueuedWrite → UpsertResult
  | _, [] => { attempts := [], unrecoverable := [], crashed := false }
  | rBound, item :: rest =>
    match wenv.singleOutcome item with
    | .ok =>
      let r := fallbackLoop wenv true rest
      { r with attempts := .singlePost item :: r.attempts }
    | .httpError =>
      let r := fallbackLoop wenv true rest
      if wenv.rescueOk (minimal_item item) then
        { r with attempts :=
            .singlePost item :: .rescuePost (minimal_item item) :: r.attempts }
      else
        { attempts :=
            .singlePost item :: .rescuePost (minimal_item item) :: r.attempts
          unrecoverable := item.bygning_id :: r.unrecoverable
          crashed := r.crashed }
    | .raised =>
      if wenv.rescueOk (minimal_item item) then
        let r := fallbackLoop wenv rBound rest
        { r with attempts :=
            .singlePost item :: .rescuePost (minimal_item item) :: r.attempts }
      else if rBound then
        let r := fallbackLoop wenv rBound rest
        { attempts :=
            .singlePost item :: .rescuePost (minimal_item item) :: r.attempts
          unrecoverable := item.bygning_id :: r.unrecoverable
          crashed := r.crashed }
      else
        { attempts := [.singlePost item, .rescuePost (minimal_item item)]
          unrecoverable := [item.bygning_id]
          crashed := true }

/-- Model of `upsert_to_supabase` (source lines 625-683): empty batches
are skipped; otherwise the cleaned batch is posted once; on failure the
batch is NOT retried — the one-by-one fallback loop runs, starting with
`r_single` unbound.  `crashed = true` means the call raised
(`UnboundLocalError` at line 681) instead of returning, abandoning the
remaining records of the batch. -/
def upsert_to_supabase (wenv : WriteEnv) (batch : List QueuedWrite) :
    UpsertResult :=
  match batch with
  | [] => { attempts := [], unrecoverable := [], crashed := false }
  | _ :: _ =>
    let cleaned := batch.map clearAction
    if wenv.batchOk cleaned then
      { attempts := [.batchPost cleaned], unrecoverable := [], crashed := false }
    else
      let r := fallbackLoop wenv false batch
      { r with attempts := .batchPost cleaned :: r.attempts }

/-- One PATCH issued by `touch_last_seen`: a chunk of external ids and
the single-field payload `\x7b"last_seen_at": run_ts\x7d`. -/
structure TouchPatch where
  ids : List String
  payload_last_seen_at : String
deriving DecidableEq

/-- Model of `touch_last_seen` (source lines 685-705): nothing for an empty id
list, otherwise one PATCH per 100-id chunk, each setting only
`last_seen_at`. -/
def touch_last_seen (bygning_ids : List String) (run_ts : String) :
    List TouchPatch :=
  if bygning_ids = [] then []
  else
    (List.range ((bygning_ids.length + 99) / 100)).map fun k =>
      { ids := (bygning_ids.drop (k * 100)).take 100
        payload_last_seen_at := run_ts }

/-- Accumulated per-record scan state: the seen set (Python `set`,
modelled as a duplicate-free insertion list), the unchanged-id list, the
classification counters, the two upsert queues and the batches already
flushed to `upsert_to_supabase`. -/
structure ScanAcc where
  seen_ids : List String
  unchanged_ids : List String
  stats_new : Nat
  stats_updated : Nat
  stats_restored : Nat
  stats_unchanged : Nat
  stats_address_refreshed : Nat
  stats_missing_location : Nat
  insert_queue_full : List QueuedWrite
  insert_queue_core : List QueuedWrite
  flushed : List (List QueuedWrite)
deriving DecidableEq

/-- The empty accumulator at scan start. -/
def initAcc : ScanAcc :=
  { seen_ids := [], unchanged_ids := []
    stats_new := 0, stats_updated := 0, stats_restored := 0
    stats_unchanged := 0, stats_address_refreshed := 0
    stats_missing_location := 0
    insert_queue_full := [], insert_queue_core := [], flushed := [] }

/-- Python `set.add`: insert an id if not already present. -/
def setInsert (s : List String) (x : String) : List String :=
  if x ∈ s then s else x :: s

/-- Bump the counter matching the classification. -/
def bumpStats (acc : ScanAcc) : Classification → ScanAcc
  | .new => { acc with stats_new := acc.stats_new + 1 }
  | .restored => { acc with stats_restored := acc.stats_restored + 1 }
  | .updated => { acc with stats_updated := acc.stats_updated + 1 }
  | .addressRefresh =>
    { acc with stats_address_refreshed := acc.stats_address_refreshed + 1 }
  | .unchanged => { acc with stats_unchanged := acc.stats_unchanged + 1 }

/-- Flush either queue once it has reached `BATCH_SIZE` records
(source lines 493-499); a flushed batch is appended to the trace and the
queue emptied. -/
def flushIfFull (cfg : Config) (acc : ScanAcc) : ScanAcc :=
  let acc1 :=
    if acc.insert_queue_full.length ≥ cfg.BATCH_SIZE then
      { acc with
          flushed := acc.flushed ++ [acc.insert_queue_full]
          insert_queue_full := [] }
    else acc
  if acc1.insert_queue_core.length ≥ cfg.BATCH_SIZE then
    { acc1 with
        flushed := acc1.flushed ++ [acc1.insert_queue_core]
        insert_queue_core := [] }
  else acc1

/-- Process one upstream node (source lines 386-499): discard it unless
`int(capacity)` succeeds with a positive value; otherwise record it as
seen, classify it against the snapshot, bump the matching counter, and
queue/flush its write (unchanged records only join `unchanged_ids`).
A full write whose enrichment lookup produced no location also bumps
`stats_missing_location`. -/
def processNode (env : ScanEnv) (cfg : Config)
    (existing_state : List (String × SnapEntry)) (acc : ScanAcc)
    (node : Node) : ScanAcc :=
  match node.byg069Sikringsrumpladser with
  | none => acc
  | some capacity =>
    if capacity ≤ 0 then acc
    else
      let acc1 := { acc with seen_ids := setInsert acc.seen_ids node.id_lokalId }
      let curr := existing_state.lookup node.id_lokalId
      let cls := classify env cfg capacity node.byg021BygningensAnvendelse
        node.kommunekode curr
      let acc2 := bumpStats acc1 cls
      match classifyAndBuild env cfg node capacity curr with
      | none =>
        { acc2 with unchanged_ids := acc2.unchanged_ids ++ [node.id_lokalId] }
      | some (QueueKind.fullWrite, w) =>
        let acc3 :=
          if w.location? = none then
            { acc2 with stats_missing_location := acc2.stats_missing_location + 1 }
          else acc2
        flushIfFull cfg
          { acc3 with insert_queue_full := acc3.insert_queue_full ++ [w] }
      | some (QueueKind.coreWrite, w) =>
        flushIfFull cfg
          { acc2 with insert_queue_core := acc2.insert_queue_core ++ [w] }

/-- GraphQL `pageInfo`: the has-more flag and the continuation token
(`none` when the key is absent or null). -/
structure PageInfo where
  hasNextPage : Bool
  endCursor : Option String
deriving DecidableEq

/-- The `data.BBR_Bygning` block of a well-formed GraphQL reply. -/
structure GqlData where
  nodes : List Node
  pageInfo : PageInfo
deriving DecidableEq

/-- Outcome of one HTTP attempt inside `post_graphql_with_retry`:
a 200 reply (whose body may carry a GraphQL `errors` key), a non-200
status, or a request exception. -/
inductive AttemptResult
  | http200 (hasErrors : Bool) (data : GqlData)
  | httpStatus (status : Nat)
  | netExn
deriving DecidableEq

/-- The transient statuses the source retries. -/
def retryable_status (s : Nat) : Bool :=
  s == 429 || s == 500 || s == 502 || s == 503 || s == 504

/-- Attempt loop of `post_graphql_with_retry` (source lines 322-354),
with the attempt counter made explicit.  A 200 reply without errors
returns its body.  A 200 reply WITH a GraphQL `errors` key raises
`RuntimeError`, which the attempt's own `except Exception` catches — so
it backs off and retries, exactly like a transient status or a network
exception.  A non-retryable status returns `None` at once.  Returns the
result and the number of attempts consumed. -/
def post_graphql_go (responses : Nat → AttemptResult) (attempt fuel : Nat) :
    Option GqlData × Nat :=
  match fuel with
  | 0 => (none, attempt - 1)
  | f + 1 =>
    match responses attempt with
    | .http200 false d => (some d, attempt)
    | .http200 true _ => post_graphql_go responses (attempt + 1) f
    | .httpStatus st =>
      if retryable_status st then post_graphql_go responses (attempt + 1) f
      else (none, attempt)
    | .netExn => post_graphql_go responses (attempt + 1) f

/-- Model of `post_graphql_with_retry`: run the attempt loop for
`MAX_GRAPHQL_RETRIES` attempts starting at attempt 1. -/
def post_graphql_with_retry (responses : Nat → AttemptResult)
    (maxRetries : Nat) : Option GqlData × Nat :=
  post_graphql_go responses 1 maxRetries

/-- A page fetch as seen by the scan loop: the parsed body, or failure
(`post_graphql_with_retry` returned `None`). -/
inductive FetchResult
  | ok (data : GqlData)
  | failed
deriving DecidableEq

/-- Resolve one page's attempt stream into a fetch result. -/
def resolveFetch (responses : Nat → AttemptResult) (maxRetries : Nat) :
    FetchResult :=
  match (post_graphql_with_retry responses maxRetries).1 with
  | none => .failed
  | some d => .ok d

/-- Scan-loop state: the in-memory cursor `after`, the value persisted
in the cursor store (`stored_cursor`, written by `save_cursor`), the
loop flags, and ghost traces of the pages and nodes fully processed. -/
structure ScanState where
  after : Option String
  stored_cursor : Option String
  has_next : Bool
  completed_successfully : Bool
  graphql_had_errors : Bool
  graphql_error_count : Nat
  page_index : Nat
  processed_pages : List PageInfo
  processed_nodes : List Node
  acc : ScanAcc
deriving DecidableEq

/-- Scan start: both cursors hold the resume value loaded from the
store; the loop is live and nothing is processed yet. -/
def initState (saved : Option String) : ScanState :=
  { after := saved, stored_cursor := saved, has_next := true
    completed_successfully := false, graphql_had_errors := false
    graphql_error_count := 0, page_index := 0
    processed_pages := [], processed_nodes := [], acc := initAcc }

/-- Process one successfully fetched page (source lines 373-536):
classify and queue every node, advance `after` to the page's
`endCursor`, persist it at once (`save_cursor(after)`), and on the
final page mark completion and clear the persisted cursor
(`save_cursor(None)`). -/
def stepPage (env : ScanEnv) (cfg : Config)
    (existing_state : List (String × SnapEntry)) (s : ScanState)
    (d : GqlData) : ScanState :=
  let acc := d.nodes.foldl (processNode env cfg existing_state) s.acc
  let s1 : ScanState :=
    { s with
        acc := acc
        page_index := s.page_index + 1
        processed_pages := s.processed_pages ++ [d.pageInfo]
        processed_nodes := s.processed_nodes ++ d.nodes
        has_next := d.pageInfo.hasNextPage
        after := d.pageInfo.endCursor
        stored_cursor := d.pageInfo.endCursor }
  if d.pageInfo.hasNextPage then s1
  else { s1 with completed_successfully := true, stored_cursor := none }

/-- The `while has_next` loop (source lines 356-543) over a list of
page-fetch outcomes.  A failed fetch sets `graphql_had_errors` and
breaks without touching either cursor; an exhausted outcome list is an
observation point mid-run.  The loop body only runs while `has_next`. -/
def runPages (env : ScanEnv) (cfg : Config)
    (existing_state : List (String × SnapEntry)) :
    List FetchResult → ScanState → ScanState
  | [], s => s
  | f :: rest, s =>
    if s.has_next = false then s
    else
      match f with
      | .failed =>
        { s with
            graphql_had_errors := true
            graphql_error_count := s.graphql_error_count + 1 }
      | .ok d => runPages env cfg existing_state rest (stepPage env cfg existing_state s d)

/-- Count `active_existing` (source line 556): snapshot rows not already
soft-deleted. -/
def active_existing (existing_state : List (String × SnapEntry)) : Nat :=
  (existing_state.filter fun p => !p.2.deleted).length

/-- Threshold `min_seen_required` (source line 557):
`max(SAFE_THRESHOLD, int(active_existing * MIN_DELETE_COVERAGE))`,
with the coverage product computed as the exact rational
`active * covNum / covDen` (truncated; equal to the source's float
result for the default coverage `0.8` at realistic snapshot sizes). -/
def min_seen_required (cfg : Config) (active : Nat) : Nat :=
  max cfg.SAFE_THRESHOLD (active * cfg.covNum / cfg.covDen)

/-- The ids collected for soft deletion (source lines 561-565): the
internal id of every snapshot row that is active and was not seen. -/
def to_delete (existing_state : List (String × SnapEntry))
    (seen : List String) : List Int :=
  ((existing_state.filter fun p => !p.2.deleted && !(seen.contains p.1)).map
    fun p => p.2.id)

/-- The deletion phase (source lines 554-581): runs — returning the ids
it soft-deletes — only when the scan completed naturally, no fatal
GraphQL error occurred, and the seen count reaches
`min_seen_required`; otherwise it is skipped (`none`). -/
def deletion_phase (cfg : Config) (completed hadErrors : Bool)
    (seen : List String) (existing_state : List (String × SnapEntry)) :
    Option (List Int) :=
  if completed && !hadErrors
      && decide (min_seen_required cfg (active_existing existing_state) ≤ seen.length) then
    some (to_delete existing_state seen)
  else none

/-! ### The scan with write outcomes threaded through

`runPages`/`processNode` above describe the scan under flush calls that
return — every execution in which the write fallback does not hit the
line-681 `UnboundLocalError`.  The `…W` variants below additionally
thread the write oracles through the loop, because that crash DOES feed
back into the scan: an in-loop flush that raises is caught by the scan
loop's `except Exception` (source line 541) and breaks the loop, and a
final-flush crash (source lines 546-549, outside any `try`) aborts
`sync()` before the touch and deletion phases.  `runPagesW_proj` below
proves the two models agree whenever no individual post raises without
a response. -/

/-- Crash-aware accumulator: the write-free accumulator, the ghost list
of nodes whose loop body actually ran, the results of the flushes
performed, and the pending-exception flag (a flush crash that the node
loop is propagating). -/
structure ScanAccW where
  core : ScanAcc
  touched_nodes : List Node
  flush_results : List UpsertResult
  crashed : Bool
deriving DecidableEq

/-- The empty crash-aware accumulator. -/
def initAccW : ScanAccW :=
  { core := initAcc, touched_nodes := [], flush_results := [], crashed := false }

/-- The full-queue flush check (source lines 493-495) with real write
outcomes: a flush calls `upsert_to_supabase`; on a crash the queue
reset that FOLLOWS the call in the source never executes (the queue
keeps its records) and the exception starts propagating. -/
def flushFullQueueW (wenv : WriteEnv) (cfg : Config) (a : ScanAccW) : ScanAccW :=
  if a.core.insert_queue_full.length ≥ cfg.BATCH_SIZE then
    let r := upsert_to_supabase wenv a.core.insert_queue_full
    if r.crashed then
      { a with flush_results := a.flush_results ++ [r], crashed := true }
    else
      { a with
          core := { a.core with
            flushed := a.core.flushed ++ [a.core.insert_queue_full]
            insert_queue_full := [] }
          flush_results := a.flush_results ++ [r] }
  else a

/-- The core-queue flush check (source lines 497-499), same semantics. -/
def flushCoreQueueW (wenv : WriteEnv) (cfg : Config) (a : ScanAccW) : ScanAccW :=
  if a.core.insert_queue_core.length ≥ cfg.BATCH_SIZE then
    let r := upsert_to_supabase wenv a.core.insert_queue_core
    if r.crashed then
      { a with flush_results := a.flush_results ++ [r], crashed := true }
    else
      { a with
          core := { a.core with
            flushed := a.core.flushed ++ [a.core.insert_queue_core]
            insert_queue_core := [] }
          flush_results := a.flush_results ++ [r] }
  else a

/-- Both BATCH_SIZE-triggered flush checks in source order; a crash of
the first skips the second (the exception is already propagating). -/
def flushIfFullW (wenv : WriteEnv) (cfg : Config) (a : ScanAccW) : ScanAccW :=
  let a1 := flushFullQueueW wenv cfg a
  if a1.crashed then a1 else flushCoreQueueW wenv cfg a1

/-- Crash-aware node processing: while an exception is propagating the
node loop body no longer runs (the node is not touched, not classified,
not added to the seen set); otherwise exactly as `processNode`, with
the flushes performed through the write oracles. -/
def processNodeW (env : ScanEnv) (cfg : Config) (wenv : WriteEnv)
    (existing_state : List (String × SnapEntry)) (a : ScanAccW)
    (node : Node) : ScanAccW :=
  if a.crashed then a
  else
    let a0 := { a with touched_nodes := a.touched_nodes ++ [node] }
    match node.byg069Sikringsrumpladser with
    | none => a0
    | some capacity =>
      if capacity ≤ 0 then a0
      else
        let acc1 := { a0.core with
          seen_ids := setInsert a0.core.seen_ids node.id_lokalId }
        let curr := existing_state.lookup node.id_lokalId
        let cls := classify env cfg capacity node.byg021BygningensAnvendelse
          node.kommunekode curr
        let acc2 := bumpStats acc1 cls
        match classifyAndBuild env cfg node capacity curr with
        | none =>
          { a0 with core :=
              { acc2 with unchanged_ids := acc2.unchanged_ids ++ [node.id_lokalId] } }
        | some (QueueKind.fullWrite, w) =>
          let acc3 :=
            if w.location? = none then
              { acc2 with stats_missing_location := acc2.stats_missing_location + 1 }
            else acc2
          flushIfFullW wenv cfg
            { a0 with core :=
                { acc3 with insert_queue_full := acc3.insert_queue_full ++ [w] } }
        | some (QueueKind.coreWrite, w) =>
          flushIfFullW wenv cfg
            { a0 with core :=
                { acc2 with insert_queue_core := acc2.insert_queue_core ++ [w] } }

/-- Crash-aware scan-loop state (the `graphql_error_count`, cursors and
ghost page/node traces as in `ScanState`). -/
structure ScanStateW where
  after : Option String
  stored_cursor : Option String
  has_next : Bool
  completed_successfully : Bool
  graphql_had_errors : Bool
  graphql_error_count : Nat
  page_index : Nat
  processed_pages : List PageInfo
  processed_nodes : List Node
  accW : ScanAccW
deriving DecidableEq

/-- Crash-aware scan start. -/
def initStateW (saved : Option String) : ScanStateW :=
  { after := saved, stored_cursor := saved, has_next := true
    completed_successfully := false, graphql_had_errors := false
    graphql_error_count := 0, page_index := 0
    processed_pages := [], processed_nodes := [], accW := initAccW }

/-- Crash-aware page step: if a flush crashed inside the node loop, the
post-loop code (cursor advance, `save_cursor`, completion marking,
lines 501-533) never runs for this page and the exception propagates to
the scan loop's handler. -/
def stepPageW (env : ScanEnv) (cfg : Config) (wenv : WriteEnv)
    (existing_state : List (String × SnapEntry)) (s : ScanStateW)
    (d : GqlData) : ScanStateW :=
  let aW := d.nodes.foldl (processNodeW env cfg wenv existing_state) s.accW
  if aW.crashed then
    { s with accW := aW, page_index := s.page_index + 1 }
  else
    let s1 : ScanStateW :=
      { s with
          accW := aW
          page_index := s.page_index + 1
          processed_pages := s.processed_pages ++ [d.pageInfo]
          processed_nodes := s.processed_nodes ++ d.nodes
          has_next := d.pageInfo.hasNextPage
          after := d.pageInfo.endCursor
          stored_cursor := d.pageInfo.endCursor }
    if d.pageInfo.hasNextPage then s1
    else { s1 with completed_successfully := true, stored_cursor := none }

/-- The crash-aware `while has_next` loop: a page whose flush crashed is
caught by the `except Exception` at source line 541 and breaks the loop
(without setting `graphql_had_errors` — that flag is GraphQL-specific);
a failed fetch flags the error and breaks as before. -/
def runPagesW (env : ScanEnv) (cfg : Config) (wenv : WriteEnv)
    (existing_state : List (String × SnapEntry)) :
    List FetchResult → ScanStateW → ScanStateW
  | [], s => s
  | f :: rest, s =>
    if s.has_next = false then s
    else
      match f with
      | .failed =>
        { s with
            graphql_had_errors := true
            graphql_error_count := s.graphql_error_count + 1 }
      | .ok d =>
        let s1 := stepPageW env cfg wenv existing_state s d
        if s1.accW.crashed then s1
        else runPagesW env cfg wenv existing_state rest s1

/-- End-of-run outcome of `sync`: `aborted = true` means a final-flush
crash escaped `sync()` itself (source lines 546-549 sit outside any
`try`), so neither the touch nor the deletion phase ran. -/
structure SyncResultW where
  scan : ScanStateW
  final_flush_results : List UpsertResult
  aborted : Bool
  touch_patches : List TouchPatch
  deletion : Option (List Int)

/-- The post-loop tail of `sync` (source lines 545-581): flush both
remaining queues (full then core, skipping empty ones) — each such
flush can crash `sync()` outright, skipping everything after it;
otherwise touch `last_seen_at` for unchanged records only on a clean
complete scan, and run the deletion phase.  Returns (final flush
results, aborted flag, touch patches, deletion). -/
def finalFlush (wenv : WriteEnv) (q : List QueuedWrite) :
    List UpsertResult × Bool :=
  if q = [] then ([], false)
  else
    let r := upsert_to_supabase wenv q
    ([r], r.crashed)

def syncTail (env : ScanEnv) (cfg : Config) (wenv : WriteEnv)
    (existing_state : List (String × SnapEntry)) (s : ScanStateW) :
    List UpsertResult × Bool × List TouchPatch × Option (List Int) :=
  let f1 := finalFlush wenv s.accW.core.insert_queue_full
  if f1.2 then (f1.1, true, [], none)
  else
    let f2 := finalFlush wenv s.accW.core.insert_queue_core
    if f2.2 then (f1.1 ++ f2.1, true, [], none)
    else
      (f1.1 ++ f2.1, false,
        (if s.completed_successfully && !s.graphql_had_errors then
          touch_last_seen s.accW.core.unchanged_ids env.run_ts
        else []),
        deletion_phase cfg s.completed_successfully s.graphql_had_errors
          s.accW.core.seen_ids existing_state)

/-- One whole run of `sync`: the crash-aware page loop followed by the
post-loop tail. -/
def syncRun (env : ScanEnv) (cfg : Config) (wenv : WriteEnv)
    (existing_state : List (String × SnapEntry)) (saved : Option String)
    (fetches : List FetchResult) : SyncResultW :=
  let s := runPagesW env cfg wenv existing_state fetches (initStateW saved)
  { scan := s
    final_flush_results := (syncTail env cfg wenv existing_state s).1
    aborted := (syncTail env cfg wenv existing_state s).2.1
    touch_patches := (syncTail env cfg wenv existing_state s).2.2.1
    deletion := (syncTail env cfg wenv existing_state s).2.2.2 }

/-! ### Concrete objects used by witnesses and counterexamples -/

/-- The source's default tuning constants (environment defaults):
batch 200, refresh horizon 90 days, safe threshold 500, coverage 0.8
(as the exact rational 8/10), 8 GraphQL retries. -/
def defaultConfig : Config :=
  { BATCH_SIZE := 200, ADDRESS_REFRESH_DAYS := 90, SAFE_THRESHOLD := 500
    covNum := 8, covDen := 10, MAX_GRAPHQL_RETRIES := 8 }

/-- A concrete timestamp parser recognising one fixed ISO timestamp as
time 0 (seconds). -/
def parseC : String → Option Int :=
  fun s => if s = "2000-01-01T00:00:00" then some 0 else none

/-- A concrete environment whose clock reads `now` seconds. -/
def envAt (now : Int) : ScanEnv :=
  { now := now, parse := parseC, addrLookup := fun _ => emptyAddr
    run_ts := "2000-04-10T00:00:00" }

/-- A concrete active snapshot entry whose only timestamp is a
`last_checked` at time 0 and whose location is present. -/
def snapC : SnapEntry :=
  { id := 1, capacity := some 5, deleted := false
    last_checked := some "2000-01-01T00:00:00", last_address_checked := none
    location := some "POINT(10 56)", anvendelse := some "X"
    kommunekode := some "100" }

/-! ### C1 — the Deletion Guard -/

/-- Membership in the soft-delete list: exactly the active snapshot rows
whose external id was not seen. -/
theorem mem_to_delete_iff (existing_state : List (String × SnapEntry))
    (seen : List String) (i : Int) :
    i ∈ to_delete existing_state seen ↔
      ∃ p ∈ existing_state, p.2.deleted = false ∧ p.1 ∉ seen ∧ p.2.id = i := by
  simp only [to_delete, List.mem_map, List.mem_filter, Bool.and_eq_true,
    Bool.not_eq_true']
  constructor
  · rintro ⟨p, ⟨hp, hdel, hseen⟩, hid⟩
    refine ⟨p, hp, hdel, ?_, hid⟩
    simpa using hseen
  · rintro ⟨p, hp, hdel, hseen, hid⟩
    refine ⟨p, ⟨hp, hdel, ?_⟩, hid⟩
    simpa using hseen

/-- C1: the deletion phase soft-deletes iff the scan completed naturally
with no fatal GraphQL errors and the seen count reaches
`minRequired = max(SAFE_THRESHOLD, floor(active * MIN_COVERAGE))` over
the active (not already soft-deleted) snapshot rows; when it runs it
deletes exactly the active rows not seen; with the default constants
(threshold 500, coverage 0.8) and 1000 active rows, 750 seen ids skip
deletion and 850 proceed. -/
theorem deletion_guard_spec :
    (∀ (cfg : Config) (completed hadErrors : Bool) (seen : List String)
        (existing_state : List (String × SnapEntry)),
      (deletion_phase cfg completed hadErrors seen existing_state ≠ none ↔
        (completed = true ∧ hadErrors = false ∧
          min_seen_required cfg (active_existing existing_state) ≤ seen.length))
      ∧ (∀ l, deletion_phase cfg completed hadErrors seen existing_state = some l →
          l = to_delete existing_state seen)
      ∧ (∀ i, i ∈ to_delete existing_state seen ↔
          ∃ p ∈ existing_state, p.2.deleted = false ∧ p.1 ∉ seen ∧ p.2.id = i))
    ∧ min_seen_required defaultConfig 1000 = 800
    ∧ (∀ (seen : List String) (existing_state : List (String × SnapEntry)),
        active_existing existing_state = 1000 → seen.length = 750 →
        deletion_phase defaultConfig true false seen existing_state = none)
    ∧ (∀ (seen : List String) (existing_state : List (String × SnapEntry)),
        active_existing existing_state = 1000 → seen.length = 850 →
        deletion_phase defaultConfig true false seen existing_state ≠ none) := by
  refine ⟨fun cfg completed hadErrors seen existing_state => ⟨?_, ?_, ?_⟩, ?_, ?_, ?_⟩
  · unfold deletion_phase
    split
    · rename_i h
      simp only [Bool.and_eq_true, Bool.not_eq_true', decide_eq_true_eq] at h
      simp [h.1.1, h.1.2, h.2]
    · rename_i h
      simp only [Bool.and_eq_true, Bool.not_eq_true', decide_eq_true_eq] at h
      simp only [ne_eq, not_true_eq_false, false_iff]
      intro ⟨h1, h2, h3⟩
      exact h ⟨⟨h1, h2⟩, h3⟩
  · intro l hl
    unfold deletion_phase at hl
    split at hl
    · exact (Option.some.inj hl).symm
    · exact absurd hl (by simp)
  · exact fun i => mem_to_delete_iff existing_state seen i
  · decide
  · intro seen existing_state hact hlen
    unfold deletion_phase
    rw [hact, hlen]
    norm_num [min_seen_required, defaultConfig]
  · intro seen existing_state hact hlen
    unfold deletion_phase
    rw [hact, hlen]
    norm_num [min_seen_required, defaultConfig]
    simp

/-- A concrete active snapshot entry (no timestamps, no location). -/
def activeEntryC : SnapEntry :=
  { id := 7, capacity := some 5, deleted := false, last_checked := none
    last_address_checked := none, location := none, anvendelse := none
    kommunekode := none }

/-- A snapshot of `n` distinct active rows. -/
def activeRows (n : Nat) : List (String × SnapEntry) :=
  (List.range n).map fun i => (toString i, activeEntryC)

theorem activeRows_active (n : Nat) : active_existing (activeRows n) = n := by
  unfold active_existing activeRows
  rw [List.filter_map]
  simp [Function.comp_def, activeEntryC]

theorem deletion_guard_spec_witness :
    deletion_phase defaultConfig true false ((List.range 750).map toString)
        (activeRows 1000) = none
    ∧ deletion_phase defaultConfig true false ((List.range 850).map toString)
        (activeRows 1000) ≠ none := by
  refine ⟨deletion_guard_spec.2.2.1 _ _ ?_ ?_, deletion_guard_spec.2.2.2 _ _ ?_ ?_⟩
  · exact activeRows_active 1000
  · simp
  · exact activeRows_active 1000
  · simp

/-! ### C3 — the capacity filter -/

/-- C3: an upstream record whose capacity is non-numeric (`int()`
raises) or not positive is discarded before classification: processing
it leaves the whole accumulator — seen set, every statistic, both
queues and the flush trace — unchanged. -/
theorem capacity_filter_discards (env : ScanEnv) (cfg : Config)
    (existing_state : List (String × SnapEntry)) (acc : ScanAcc)
    (node : Node)
    (h : node.byg069Sikringsrumpladser = none ∨
      ∃ c, node.byg069Sikringsrumpladser = some c ∧ c ≤ 0) :
    processNode env cfg existing_state acc node = acc := by
  rcases h with h | ⟨c, hc, hle⟩
  · simp [processNode, h]
  · simp [processNode, hc, hle]

/-- A concrete node with capacity 0, and one with a non-numeric
capacity field. -/
def nodeZeroCap : Node :=
  { id_lokalId := "B1", byg069Sikringsrumpladser := some 0
    byg021BygningensAnvendelse := some "X", kommunekode := some "100"
    husnummer := none }

theorem capacity_filter_discards_witness :
    processNode (envAt 0) defaultConfig [] initAcc nodeZeroCap = initAcc :=
  capacity_filter_discards (envAt 0) defaultConfig [] initAcc nodeZeroCap
    (Or.inr ⟨0, rfl, le_refl 0⟩)

/-! ### C6 — the staleness check -/

/-- C6: the staleness check prefers a non-empty `last_address_checked`,
falls back to `last_checked`, treats absent and unparseable timestamps
as infinitely stale, and for a parsed timestamp refreshes iff strictly
more than `ADDRESS_REFRESH_DAYS` whole elapsed days have passed (the
floored day difference exceeds the horizon, i.e. at least
`(horizon+1) * 86400` seconds have elapsed); in particular a record
matching the snapshot's core fields whose only timestamp is a
`last_checked` 100 days old, with horizon 90, is classified
ADDRESS_REFRESH, not UNCHANGED. -/
theorem staleness_check_spec :
    (∀ (env : ScanEnv) (cfg : Config),
      (∀ a c1 c2, strTruthy a = true →
        should_refresh_address env cfg a c1 = should_refresh_address env cfg a c2)
      ∧ (∀ a c, strTruthy a = false →
        should_refresh_address env cfg a c = should_refresh_address env cfg none c)
      ∧ should_refresh_address env cfg none none = true
      ∧ (∀ s, ¬(s = "") → env.parse (s.take 19) = none →
        should_refresh_address env cfg (some s) none = true)
      ∧ (∀ s c t, ¬(s = "") → env.parse (s.take 19) = some t →
        (should_refresh_address env cfg (some s) c = true ↔
          (cfg.ADDRESS_REFRESH_DAYS + 1) * 86400 ≤ env.now - t)))
    ∧ classify (envAt 8640000) defaultConfig 5 (some "X") (some "100")
        (some snapC) = Classification.addressRefresh
    ∧ classify (envAt 8640000) defaultConfig 5 (some "X") (some "100")
        (some snapC) ≠ Classification.unchanged := by
  refine ⟨fun env cfg => ⟨?_, ?_, ?_, ?_, ?_⟩, by decide, by decide⟩
  · intro a c1 c2 ha
    cases a with
    | none => simp [strTruthy] at ha
    | some s =>
      simp only [strTruthy, Bool.not_eq_true', beq_eq_false_iff_ne, ne_eq] at ha
      simp [should_refresh_address, pyOrStr, strTruthy, ha]
  · intro a c ha
    have h0 : strTruthy none = false := rfl
    simp [should_refresh_address, pyOrStr, ha, h0]
  · rfl
  · intro s hs hp
    simp [should_refresh_address, pyOrStr, strTruthy, hs, hp]
  · intro s c t hs hp
    simp only [should_refresh_address, pyOrStr, strTruthy, hs, hp,
      Bool.not_eq_true', beq_eq_false_iff_ne, ne_eq, not_false_eq_true,
      Bool.not_true, if_true, if_false, decide_eq_true_eq, decide_not]
    simp [hs]
    omega

theorem staleness_check_spec_witness :
    should_refresh_address (envAt 8640000) defaultConfig
        (some "2000-01-01T00:00:00") none = true ↔
      (defaultConfig.ADDRESS_REFRESH_DAYS + 1) * 86400 ≤ (envAt 8640000).now - 0 :=
  (staleness_check_spec.1 (envAt 8640000) defaultConfig).2.2.2.2
    "2000-01-01T00:00:00" none 0 (by decide) (by decide)

/-! ### C10 — purity of the classifier -/

/-- C10 counterexample: two environments identical except for the clock
(same parser, same lookup service, same run timestamp) classify the
same `(record, snapshot)` pair differently — at 91 days past the
record's timestamp it is ADDRESS_REFRESH, at 0 days it is UNCHANGED.
The classifier therefore does depend on ambient state (the clock read
by `datetime.utcnow()` inside `should_refresh_address`). -/
theorem classifier_clock_dependence :
    (envAt 7862400).parse = (envAt 0).parse
    ∧ (envAt 7862400).addrLookup = (envAt 0).addrLookup
    ∧ (envAt 7862400).run_ts = (envAt 0).run_ts
    ∧ classify (envAt 7862400) defaultConfig 5 (some "X") (some "100") (some snapC)
        ≠ classify (envAt 0) defaultConfig 5 (some "X") (some "100") (some snapC) :=
  ⟨rfl, rfl, rfl, by decide⟩

/-- C10 (amended): the classification decision is a pure function of the
`(UpstreamRecord, Snapshot)` pair TOGETHER WITH the ambient clock and
timestamp parser: two evaluations on identical inputs under the same
clock and parser always agree, whatever the other ambient capabilities
(address lookup, run timestamp) are. -/
theorem classifier_pure_given_clock (env1 env2 : ScanEnv) (cfg : Config)
    (capacity : Int) (anv kom : Option String) (curr : Option SnapEntry)
    (hnow : env1.now = env2.now) (hparse : env1.parse = env2.parse) :
    classify env1 cfg capacity anv kom curr =
      classify env2 cfg capacity anv kom curr := by
  cases env1
  cases env2
  simp only at hnow hparse
  subst hnow
  subst hparse
  rfl

/-- An environment agreeing with `envAt 0` on clock and parser but with
a different address-lookup service. -/
def envAltLookup : ScanEnv :=
  { envAt 0 with addrLookup := fun _ =>
      { address := some "Road 1", vejnavn := some "Road"
        husnummer := some "1", postnummer := some "8000"
        location := some "POINT(1 2)" } }

theorem classifier_pure_given_clock_witness :
    classify (envAt 0) defaultConfig 5 (some "X") (some "100") (some snapC) =
      classify envAltLookup defaultConfig 5 (some "X") (some "100") (some snapC) :=
  classifier_pure_given_clock (envAt 0) envAltLookup defaultConfig 5
    (some "X") (some "100") (some snapC) rfl rfl

/-! ### C2 — the classification priority ladder -/

theorem strContains_updated :
    strContains "updated (capacity/anvendelse/kommunekode changed)" "new" = false := by
  decide

/-- C2: for every capacity-valid upstream record the ladder is strict:
external id absent from the snapshot → NEW with enrichment; else the
snapshot entry soft-deleted → RESTORED with enrichment, its queued
(full) write clearing the deleted marker; else capacity, usage-code or
municipality-code drift → UPDATED with no enrichment (core-queue
write, no deleted key); else stale-or-missing address →
ADDRESS_REFRESH with enrichment; else UNCHANGED with no queued
upsert at all. -/
theorem classification_ladder_spec (env : ScanEnv) (cfg : Config)
    (node : Node) (capacity : Int) :
    (classify env cfg capacity node.byg021BygningensAnvendelse node.kommunekode
        none = Classification.new
      ∧ needs_address Classification.new = true
      ∧ (classifyAndBuild env cfg node capacity none).map Prod.fst =
          some QueueKind.fullWrite)
    ∧ (∀ e : SnapEntry, e.deleted = true →
        classify env cfg capacity node.byg021BygningensAnvendelse node.kommunekode
          (some e) = Classification.restored
        ∧ needs_address Classification.restored = true
        ∧ (classifyAndBuild env cfg node capacity (some e)).map Prod.fst =
            some QueueKind.fullWrite
        ∧ (classifyAndBuild env cfg node capacity (some e)).map
            (fun p => p.2.deleted?) = some (some none))
    ∧ (∀ e : SnapEntry, e.deleted = false →
        (e.capacity ≠ some capacity
          ∨ e.anvendelse ≠ node.byg021BygningensAnvendelse
          ∨ e.kommunekode ≠ node.kommunekode) →
        classify env cfg capacity node.byg021BygningensAnvendelse node.kommunekode
          (some e) = Classification.updated
        ∧ needs_address Classification.updated = false
        ∧ (classifyAndBuild env cfg node capacity (some e)).map Prod.fst =
            some QueueKind.coreWrite
        ∧ (classifyAndBuild env cfg node capacity (some e)).map
            (fun p => p.2.deleted?) = some none)
    ∧ (∀ e : SnapEntry, e.deleted = false →
        e.capacity = some capacity →
        e.anvendelse = node.byg021BygningensAnvendelse →
        e.kommunekode = node.kommunekode →
        (should_refresh_address env cfg e.last_address_checked e.last_checked = true
          ∨ e.location = none) →
        classify env cfg capacity node.byg021BygningensAnvendelse node.kommunekode
          (some e) = Classification.addressRefresh
        ∧ needs_address Classification.addressRefresh = true
        ∧ (classifyAndBuild env cfg node capacity (some e)).map Prod.fst =
            some QueueKind.fullWrite)
    ∧ (∀ e : SnapEntry, e.deleted = false →
        e.capacity = some capacity →
        e.anvendelse = node.byg021BygningensAnvendelse →
        e.kommunekode = node.kommunekode →
        should_refresh_address env cfg e.last_address_checked e.last_checked = false →
        e.location ≠ none →
        classify env cfg capacity node.byg021BygningensAnvendelse node.kommunekode
          (some e) = Classification.unchanged
        ∧ classifyAndBuild env cfg node capacity (some e) = none) := by
  refine ⟨⟨rfl, rfl, ?_⟩, ?_, ?_, ?_, ?_⟩
  · have hcls : classify env cfg capacity node.byg021BygningensAnvendelse
        node.kommunekode none = Classification.new := rfl
    simp only [classifyAndBuild, hcls]
    rw [if_neg (by decide), if_pos (by simp [needs_address])]
    rfl
  · intro e hdel
    have hcls : classify env cfg capacity node.byg021BygningensAnvendelse
        node.kommunekode (some e) = Classification.restored := by
      simp [classify, hdel]
    refine ⟨hcls, rfl, ?_, ?_⟩
    · simp only [classifyAndBuild, hcls]
      rw [if_neg (by decide), if_pos (by simp [needs_address])]
      rfl
    · simp only [classifyAndBuild, hcls]
      rw [if_neg (by decide), if_pos (by simp [needs_address])]
      rfl
  · intro e hdel hdiff
    have hcls : classify env cfg capacity node.byg021BygningensAnvendelse
        node.kommunekode (some e) = Classification.updated := by
      simp only [classify, hdel, Bool.false_eq_true, if_false]
      rw [if_pos hdiff]
    have hact : actionString capacity (some e) Classification.updated =
        "updated (capacity/anvendelse/kommunekode changed)" := rfl
    refine ⟨hcls, rfl, ?_, ?_⟩
    · simp only [classifyAndBuild, hcls, hact, strContains_updated, needs_address,
        Bool.or_false]
      rw [if_neg (by decide), if_neg (by simp)]
      rfl
    · simp only [classifyAndBuild, hcls, hact, strContains_updated, needs_address,
        Bool.or_false]
      rw [if_neg (by decide), if_neg (by simp)]
      rfl
  · intro e hdel hcap hanv hkom hstale
    have hcls : classify env cfg capacity node.byg021BygningensAnvendelse
        node.kommunekode (some e) = Classification.addressRefresh := by
      simp only [classify, hdel, Bool.false_eq_true, if_false]
      rw [if_neg (by simp [hcap, hanv, hkom]), if_pos hstale]
    refine ⟨hcls, rfl, ?_⟩
    simp only [classifyAndBuild, hcls]
    rw [if_neg (by decide), if_pos (by simp [needs_address])]
    rfl
  · intro e hdel hcap hanv hkom hfresh hloc
    have hcls : classify env cfg capacity node.byg021BygningensAnvendelse
        node.kommunekode (some e) = Classification.unchanged := by
      simp only [classify, hdel, Bool.false_eq_true, if_false]
      rw [if_neg (by simp [hcap, hanv, hkom]), if_neg (by simp [hfresh, hloc])]
    refine ⟨hcls, ?_⟩
    simp only [classifyAndBuild, hcls, if_pos]

/-- A soft-deleted variant of `snapC`, and a matching upstream node. -/
def snapDel : SnapEntry := { snapC with deleted := true }

def nodeA : Node :=
  { id_lokalId := "A1", byg069Sikringsrumpladser := some 5
    byg021BygningensAnvendelse := some "X", kommunekode := some "100"
    husnummer := none }

theorem classification_ladder_spec_witness :
    classify (envAt 0) defaultConfig 5 nodeA.byg021BygningensAnvendelse
        nodeA.kommunekode (some snapDel) = Classification.restored
    ∧ needs_address Classification.restored = true := by
  have h := (classification_ladder_spec (envAt 0) defaultConfig nodeA 5).2.1
    snapDel rfl
  exact ⟨h.1, h.2.1⟩

/-! ### C9 — frame conditions on writes -/

/-- Concatenating the 100-element chunks of a list restores the list. -/
theorem range_chunks_flatten (n : Nat) :
    ∀ l : List String, l.length ≤ n * 100 →
      ((List.range n).map fun k => (l.drop (k * 100)).take 100).flatten = l := by
  induction n with
  | zero =>
    intro l h
    simp only [Nat.zero_mul, Nat.le_zero, List.length_eq_zero] at h
    simp [h]
  | succ m ih =>
    intro l h
    rw [List.range_succ_eq_map]
    simp only [List.map_cons, List.map_map, List.flatten_cons, Nat.zero_mul,
      List.drop_zero]
    have hdrop : ((List.range m).map fun k =>
        ((Nat.succ ∘ fun (k : Nat) => k) k * 100)) = ((List.range m).map fun k =>
        (k * 100 + 100)) := by
      simp [Function.comp_def, Nat.succ_mul]
    have heq : ((List.range m).map ((fun k => (l.drop (k * 100)).take 100) ∘ Nat.succ)) =
        (List.range m).map fun k => ((l.drop 100).drop (k * 100)).take 100 := by
      refine List.map_congr_left fun k hk => ?_
      simp only [Function.comp_apply]
      rw [List.drop_drop]
      have hmul : Nat.succ k * 100 = 100 + k * 100 := by omega
      rw [hmul]
    rw [heq, ih (l.drop 100) (by simp; omega)]
    exact List.take_append_drop 100 l

/-- C9: writes queued for UPDATED records (core queue) carry no address
field, no location and no `last_address_checked`; UNCHANGED records get
no queued upsert and at most a `last_seen_at` touch; and a full write's
address fields are exactly the lookup's values, so every field the
lookup returned as missing stays absent and cannot overwrite existing
data under the merge upsert. -/
theorem enrichment_frame_spec :
    (∀ (env : ScanEnv) (cfg : Config) (node : Node) (capacity : Int)
        (curr : Option SnapEntry) (w : QueuedWrite),
      classifyAndBuild env cfg node capacity curr =
          some (QueueKind.coreWrite, w) →
        w.address? = none ∧ w.vejnavn? = none ∧ w.husnummer? = none
          ∧ w.postnummer? = none ∧ w.location? = none
          ∧ w.last_address_checked? = none)
    ∧ (∀ (env : ScanEnv) (cfg : Config) (node : Node) (capacity : Int)
        (curr : Option SnapEntry),
      classify env cfg capacity node.byg021BygningensAnvendelse node.kommunekode
          curr = Classification.updated →
        (classifyAndBuild env cfg node capacity curr).map Prod.fst =
          some QueueKind.coreWrite)
    ∧ (∀ (env : ScanEnv) (cfg : Config) (node : Node) (capacity : Int)
        (curr : Option SnapEntry),
      classify env cfg capacity node.byg021BygningensAnvendelse node.kommunekode
          curr = Classification.unchanged →
        classifyAndBuild env cfg node capacity curr = none)
    ∧ (∀ (ids : List String) (ts : String),
        ∀ p ∈ touch_last_seen ids ts, p.payload_last_seen_at = ts)
    ∧ (∀ (ids : List String) (ts : String),
        ((touch_last_seen ids ts).map fun p => p.ids).flatten = ids)
    ∧ (∀ (env : ScanEnv) (cfg : Config) (node : Node) (capacity : Int)
        (curr : Option SnapEntry) (w : QueuedWrite),
      classifyAndBuild env cfg node capacity curr =
          some (QueueKind.fullWrite, w) →
        w.address? = (env.addrLookup node.husnummer).address
        ∧ w.vejnavn? = (env.addrLookup node.husnummer).vejnavn
        ∧ w.husnummer? = (env.addrLookup node.husnummer).husnummer
        ∧ w.postnummer? = (env.addrLookup node.husnummer).postnummer
        ∧ w.location? = (env.addrLookup node.husnummer).location) := by
  refine ⟨?_, ?_, ?_, ?_, ?_, ?_⟩
  · intro env cfg node capacity curr w h
    simp only [classifyAndBuild] at h
    split at h
    · exact absurd h (by simp)
    · split at h
      · simp only [Option.some.injEq, Prod.mk.injEq, reduceCtorEq, false_and] at h
      · simp only [Option.some.injEq, Prod.mk.injEq, true_and] at h
        subst h
        exact ⟨rfl, rfl, rfl, rfl, rfl, rfl⟩
  · intro env cfg node capacity curr hcls
    have hact : actionString capacity curr Classification.updated =
        "updated (capacity/anvendelse/kommunekode changed)" := rfl
    simp only [classifyAndBuild, hcls, hact, strContains_updated, needs_address,
      Bool.or_false]
    rw [if_neg (by decide), if_neg (by simp)]
    rfl
  · intro env cfg node capacity curr hcls
    simp only [classifyAndBuild, hcls, if_pos]
  · intro ids ts p hp
    unfold touch_last_seen at hp
    split at hp
    · simp at hp
    · simp only [List.mem_map] at hp
      obtain ⟨k, _, hk⟩ := hp
      rw [← hk]
  · intro ids ts
    unfold touch_last_seen
    split
    · rename_i h
      simp [h]
    · rw [List.map_map]
      have : ((fun p : TouchPatch => p.ids) ∘ fun k =>
          TouchPatch.mk ((ids.drop (k * 100)).take 100) ts) =
          fun k => (ids.drop (k * 100)).take 100 := rfl
      rw [this]
      refine range_chunks_flatten _ ids ?_
      omega
  · intro env cfg node capacity curr w h
    simp only [classifyAndBuild] at h
    split at h
    · exact absurd h (by simp)
    · split at h
      · simp only [Option.some.injEq, Prod.mk.injEq, true_and] at h
        subst h
        exact ⟨rfl, rfl, rfl, rfl, rfl⟩
      · simp only [Option.some.injEq, Prod.mk.injEq, reduceCtorEq, false_and] at h

/-- A node and snapshot entry producing an UPDATED classification
(capacity drift: 7 upstream vs 5 in the snapshot). -/
def nodeUpd : Node :=
  { id_lokalId := "A1", byg069Sikringsrumpladser := some 7
    byg021BygningensAnvendelse := some "X", kommunekode := some "100"
    husnummer := none }

theorem enrichment_frame_spec_witness :
    (classifyAndBuild (envAt 0) defaultConfig nodeUpd 7 (some snapC)).map
        Prod.fst = some QueueKind.coreWrite
    ∧ ((touch_last_seen ["u1", "u2"] "rt").map fun p => p.ids).flatten =
        ["u1", "u2"] := by
  refine ⟨enrichment_frame_spec.2.1 (envAt 0) defaultConfig nodeUpd 7
    (some snapC) (by decide), enrichment_frame_spec.2.2.2.2.1 ["u1", "u2"] "rt"⟩

/-! ### C7 — batch write fallback (corrected) -/

/-- Is an attempt a whole-batch post? -/
def isBatchPost : UpsertAttempt → Bool
  | .batchPost _ => true
  | _ => false

theorem fallbackLoop_no_batchPost (wenv : WriteEnv) :
    ∀ (l : List QueuedWrite) (rBound : Bool),
      (fallbackLoop wenv rBound l).attempts.filter isBatchPost = [] := by
  intro l
  induction l with
  | nil => intro rBound; rfl
  | cons item rest ih =>
    intro rBound
    rcases ho : wenv.singleOutcome item with _ | _ | _
    · simp [fallbackLoop, ho, List.filter_cons, isBatchPost, ih]
    · simp only [fallbackLoop, ho]
      split <;> simp [List.filter_cons, isBatchPost, ih]
    · simp only [fallbackLoop, ho]
      split
      · simp [List.filter_cons, isBatchPost, ih]
      · split <;> simp [List.filter_cons, isBatchPost, ih]

/-- A crash of the fallback loop can only arise from an individual post
that raised without binding a response, whose rescue then failed. -/
theorem fallbackLoop_crash_origin (wenv : WriteEnv) :
    ∀ (l : List QueuedWrite) (rBound : Bool),
      (fallbackLoop wenv rBound l).crashed = true →
      ∃ item ∈ l, wenv.singleOutcome item = SingleOutcome.raised
        ∧ wenv.rescueOk (minimal_item item) = false := by
  intro l
  induction l with
  | nil =>
    intro rBound h
    cases h
  | cons item rest ih =>
    intro rBound h
    rcases ho : wenv.singleOutcome item with _ | _ | _ <;>
      simp only [fallbackLoop, ho] at h
    · obtain ⟨x, hx, h1, h2⟩ := ih true h
      exact ⟨x, List.mem_cons_of_mem _ hx, h1, h2⟩
    · split at h
      · obtain ⟨x, hx, h1, h2⟩ := ih true h
        exact ⟨x, List.mem_cons_of_mem _ hx, h1, h2⟩
      · obtain ⟨x, hx, h1, h2⟩ := ih true h
        exact ⟨x, List.mem_cons_of_mem _ hx, h1, h2⟩
    · split at h
      · obtain ⟨x, hx, h1, h2⟩ := ih rBound h
        exact ⟨x, List.mem_cons_of_mem _ hx, h1, h2⟩
      · split at h
        · obtain ⟨x, hx, h1, h2⟩ := ih rBound h
          exact ⟨x, List.mem_cons_of_mem _ hx, h1, h2⟩
        · rename_i hrescue _
          exact ⟨item, List.mem_cons_self _ _, ho, by simpa using hrescue⟩

/-- When no individual post raises without a response, the handler
cannot crash and the loop serves every record: an individual attempt
for each, a rescue exactly after each failure, and an unrecoverable log
after each double failure. -/
theorem fallbackLoop_no_raise (wenv : WriteEnv) :
    ∀ (l : List QueuedWrite) (rBound : Bool),
      (∀ item ∈ l, wenv.singleOutcome item ≠ SingleOutcome.raised) →
      (fallbackLoop wenv rBound l).crashed = false
      ∧ (∀ item ∈ l,
          UpsertAttempt.singlePost item ∈ (fallbackLoop wenv rBound l).attempts)
      ∧ (∀ item ∈ l, wenv.singleOutcome item = SingleOutcome.httpError →
          UpsertAttempt.rescuePost (minimal_item item) ∈
            (fallbackLoop wenv rBound l).attempts
          ∧ (wenv.rescueOk (minimal_item item) = false →
              item.bygning_id ∈ (fallbackLoop wenv rBound l).unrecoverable)) := by
  intro l
  induction l with
  | nil =>
    intro rBound hnr
    refine ⟨rfl, ?_, ?_⟩
    · intro item h
      cases h
    · intro item h
      cases h
  | cons item rest ih =>
    intro rBound hnr
    have hnrest : ∀ x ∈ rest, wenv.singleOutcome x ≠ SingleOutcome.raised :=
      fun x hx => hnr x (List.mem_cons_of_mem _ hx)
    rcases ho : wenv.singleOutcome item with _ | _ | _ <;>
      simp only [fallbackLoop, ho]
    · obtain ⟨hc, hs, hr⟩ := ih true hnrest
      refine ⟨hc, ?_, ?_⟩
      · intro x hx
        rcases List.mem_cons.mp hx with rfl | hx2
        · exact List.mem_cons_self _ _
        · exact List.mem_cons_of_mem _ (hs x hx2)
      · intro x hx hox
        rcases List.mem_cons.mp hx with rfl | hx2
        · rw [ho] at hox
          cases hox
        · obtain ⟨h1, h2⟩ := hr x hx2 hox
          exact ⟨List.mem_cons_of_mem _ h1, h2⟩
    · obtain ⟨hc, hs, hr⟩ := ih true hnrest
      split
      · rename_i hresc
        refine ⟨hc, ?_, ?_⟩
        · intro x hx
          rcases List.mem_cons.mp hx with rfl | hx2
          · exact List.mem_cons_self _ _
          · exact List.mem_cons_of_mem _ (List.mem_cons_of_mem _ (hs x hx2))
        · intro x hx hox
          rcases List.mem_cons.mp hx with rfl | hx2
          · refine ⟨List.mem_cons_of_mem _ (List.mem_cons_self _ _), ?_⟩
            intro hfail
            rw [hresc] at hfail
            cases hfail
          · obtain ⟨h1, h2⟩ := hr x hx2 hox
            exact ⟨List.mem_cons_of_mem _ (List.mem_cons_of_mem _ h1), h2⟩
      · rename_i hresc
        rw [Bool.not_eq_true] at hresc
        refine ⟨hc, ?_, ?_⟩
        · intro x hx
          rcases List.mem_cons.mp hx with rfl | hx2
          · exact List.mem_cons_self _ _
          · exact List.mem_cons_of_mem _ (List.mem_cons_of_mem _ (hs x hx2))
        · intro x hx hox
          rcases List.mem_cons.mp hx with rfl | hx2
          · exact ⟨List.mem_cons_of_mem _ (List.mem_cons_self _ _),
              fun _ => List.mem_cons_self _ _⟩
          · obtain ⟨h1, h2⟩ := hr x hx2 hox
            refine ⟨List.mem_cons_of_mem _ (List.mem_cons_of_mem _ h1),
              fun hfail => List.mem_cons_of_mem _ (h2 hfail)⟩
    · exact absurd ho (hnr item (List.mem_cons_self _ _))

/-- Two concrete queued records. -/
def wC : QueuedWrite :=
  { action? := some "new (Cap: 5)", deleted? := none, bygning_id := "c"
    shelter_capacity := 5, anvendelse := some "X", kommunekode := some "100"
    last_checked := "t0", last_seen_at := "t0"
    last_address_checked? := some "t0", address? := none, postnummer? := none
    vejnavn? := none, husnummer? := none, location? := none }

def wD : QueuedWrite := { wC with bygning_id := "d" }

/-- Oracles for the crash path: the batch post fails, every individual
post raises before binding a response, every rescue fails. -/
def wenvRaiseC : WriteEnv :=
  { batchOk := fun _ => false
    singleOutcome := fun _ => SingleOutcome.raised
    rescueOk := fun _ => false }

/-- Oracles for the response-bound path: the batch post fails, `c`'s
individual post succeeds, `d`'s fails with an HTTP response bound, and
every rescue fails. -/
def wenvHttpC : WriteEnv :=
  { batchOk := fun _ => false
    singleOutcome := fun w =>
      if w.bygning_id == "c" then SingleOutcome.ok else SingleOutcome.httpError
    rescueOk := fun _ => false }

/-- C7 counterexample: with the batch post failing, record `c`'s
individual post raising before a response is bound and its rescue
failing, `upsert_to_supabase` raises (the unguarded `r_single` read at
source line 681) and record `d` — still in the batch — is never posted
individually: processing does NOT continue with the remaining records. -/
theorem batch_fallback_abort_counterexample :
    wenvRaiseC.batchOk ([wC, wD].map clearAction) = false
    ∧ wenvRaiseC.singleOutcome wC = SingleOutcome.raised
    ∧ wenvRaiseC.rescueOk (minimal_item wC) = false
    ∧ (upsert_to_supabase wenvRaiseC [wC, wD]).crashed = true
    ∧ UpsertAttempt.singlePost wD ∉ (upsert_to_supabase wenvRaiseC [wC, wD]).attempts := by
  refine ⟨rfl, rfl, rfl, by decide, by decide⟩

/-- C7 (amended): when the batch post fails, the batch is never
re-posted (exactly one batch-level attempt) and the minimal rescue
payload is exactly the external id, capacity, `last_checked`, an
explicit `deleted = null` and nulled `anvendelse`/`kommunekode`; a
crash of the call can only come from an individual post that raised
without binding a response whose rescue then failed (the
`UnboundLocalError` path, which abandons the remaining records); and
whenever every failed individual post yields an HTTP response, the
claimed behaviour holds in full — no crash, every record attempted
individually, a rescue after each failure, and a double failure logged
unrecoverable while processing continues. -/
theorem batch_fallback_spec_amended (wenv : WriteEnv) (batch : List QueuedWrite)
    (hne : batch ≠ [])
    (hfail : wenv.batchOk (batch.map clearAction) = false) :
    (((upsert_to_supabase wenv batch).attempts.filter isBatchPost).length = 1)
    ∧ (∀ item : QueuedWrite, minimal_item item =
        { bygning_id := item.bygning_id
          shelter_capacity := item.shelter_capacity
          last_checked := item.last_checked
          deleted := none, anvendelse := none, kommunekode := none })
    ∧ ((upsert_to_supabase wenv batch).crashed = true →
        ∃ item ∈ batch, wenv.singleOutcome item = SingleOutcome.raised
          ∧ wenv.rescueOk (minimal_item item) = false)
    ∧ ((∀ item ∈ batch, wenv.singleOutcome item ≠ SingleOutcome.raised) →
        (upsert_to_supabase wenv batch).crashed = false
        ∧ (∀ item ∈ batch, UpsertAttempt.singlePost item ∈
            (upsert_to_supabase wenv batch).attempts)
        ∧ (∀ item ∈ batch, wenv.singleOutcome item = SingleOutcome.httpError →
            UpsertAttempt.rescuePost (minimal_item item) ∈
              (upsert_to_supabase wenv batch).attempts
            ∧ (wenv.rescueOk (minimal_item item) = false →
                item.bygning_id ∈ (upsert_to_supabase wenv batch).unrecoverable))) := by
  cases batch with
  | nil => exact absurd rfl hne
  | cons b bs =>
    have hu : upsert_to_supabase wenv (b :: bs) =
        { attempts := UpsertAttempt.batchPost ((b :: bs).map clearAction)
            :: (fallbackLoop wenv false (b :: bs)).attempts
          unrecoverable := (fallbackLoop wenv false (b :: bs)).unrecoverable
          crashed := (fallbackLoop wenv false (b :: bs)).crashed } := by
      simp only [upsert_to_supabase, hfail, Bool.false_eq_true, if_false]
    rw [hu]
    refine ⟨?_, fun item => rfl, ?_, ?_⟩
    · simp only [List.filter_cons, isBatchPost, fallbackLoop_no_batchPost]
      rfl
    · intro h
      exact fallbackLoop_crash_origin wenv (b :: bs) false h
    · intro hnr
      obtain ⟨hc, hs, hr⟩ := fallbackLoop_no_raise wenv (b :: bs) false hnr
      refine ⟨hc, ?_, ?_⟩
      · intro item hitem
        exact List.mem_cons_of_mem _ (hs item hitem)
      · intro item hitem hox
        obtain ⟨h1, h2⟩ := hr item hitem hox
        exact ⟨List.mem_cons_of_mem _ h1, h2⟩

theorem batch_fallback_spec_amended_witness :
    (upsert_to_supabase wenvHttpC [wC, wD]).crashed = false
    ∧ UpsertAttempt.singlePost wD ∈ (upsert_to_supabase wenvHttpC [wC, wD]).attempts
    ∧ UpsertAttempt.rescuePost (minimal_item wD) ∈
        (upsert_to_supabase wenvHttpC [wC, wD]).attempts
    ∧ wD.bygning_id ∈ (upsert_to_supabase wenvHttpC [wC, wD]).unrecoverable := by
  have h := (batch_fallback_spec_amended wenvHttpC [wC, wD] (by simp) rfl).2.2.2
    (by intro item hitem; fin_cases hitem <;> decide)
  refine ⟨h.1, h.2.1 wD (by simp), ?_, ?_⟩
  · exact (h.2.2 wD (by simp) (by decide)).1
  · exact (h.2.2 wD (by simp) (by decide)).2 rfl


/-! ### C4 — cursor persistence -/

/-- The continuation token of the last fully processed page, or the
resume value when none has been processed yet. -/
def last_processed_cursor (saved : Option String) (pages : List PageInfo) :
    Option String :=
  match pages.getLast? with
  | none => saved
  | some p => p.endCursor

theorem last_processed_cursor_concat (saved : Option String)
    (pages : List PageInfo) (p : PageInfo) :
    last_processed_cursor saved (pages ++ [p]) = p.endCursor := by
  unfold last_processed_cursor
  rw [List.getLast?_concat]

theorem stepPage_stored (env : ScanEnv) (cfg : Config)
    (ex : List (String × SnapEntry)) (s : ScanState) (d : GqlData) :
    (stepPage env cfg ex s d).stored_cursor =
      if d.pageInfo.hasNextPage then d.pageInfo.endCursor else none := by
  unfold stepPage
  split
  · rename_i hn
    simp [hn]
  · rename_i hn
    simp only [Bool.not_eq_true] at hn
    simp [hn]

theorem stepPage_completed (env : ScanEnv) (cfg : Config)
    (ex : List (String × SnapEntry)) (s : ScanState) (d : GqlData) :
    (stepPage env cfg ex s d).completed_successfully =
      if d.pageInfo.hasNextPage then s.completed_successfully else true := by
  unfold stepPage
  split
  · rename_i hn
    simp [hn]
  · rename_i hn
    simp only [Bool.not_eq_true] at hn
    simp [hn]

theorem stepPage_pages (env : ScanEnv) (cfg : Config)
    (ex : List (String × SnapEntry)) (s : ScanState) (d : GqlData) :
    (stepPage env cfg ex s d).processed_pages =
      s.processed_pages ++ [d.pageInfo] := by
  unfold stepPage
  split <;> rfl

theorem stepPage_after (env : ScanEnv) (cfg : Config)
    (ex : List (String × SnapEntry)) (s : ScanState) (d : GqlData) :
    (stepPage env cfg ex s d).after = d.pageInfo.endCursor := by
  unfold stepPage
  split <;> rfl

theorem stepPage_has_next (env : ScanEnv) (cfg : Config)
    (ex : List (String × SnapEntry)) (s : ScanState) (d : GqlData) :
    (stepPage env cfg ex s d).has_next = d.pageInfo.hasNextPage := by
  unfold stepPage
  split
  · rfl
  · rename_i hn
    simp only [Bool.not_eq_true] at hn
    simp [hn]

/-- Invariant of the page loop: completion forces the loop flag off, the
persisted cursor is null exactly on completion and otherwise equals the
in-memory cursor, and the in-memory cursor is the last processed
page's token (or the resume value). -/
theorem runPages_cursor_invariant (env : ScanEnv) (cfg : Config)
    (existing_state : List (String × SnapEntry)) (saved : Option String) :
    ∀ (fetches : List FetchResult) (s : ScanState),
      (s.completed_successfully = true → s.has_next = false) →
      s.stored_cursor = (if s.completed_successfully then none
        else last_processed_cursor saved s.processed_pages) →
      s.after = last_processed_cursor saved s.processed_pages →
      ((runPages env cfg existing_state fetches s).completed_successfully = true →
          (runPages env cfg existing_state fetches s).has_next = false)
      ∧ (runPages env cfg existing_state fetches s).stored_cursor =
          (if (runPages env cfg existing_state fetches s).completed_successfully
            then none
            else last_processed_cursor saved
              (runPages env cfg existing_state fetches s).processed_pages)
      ∧ (runPages env cfg existing_state fetches s).after =
          last_processed_cursor saved
            (runPages env cfg existing_state fetches s).processed_pages := by
  intro fetches
  induction fetches with
  | nil => exact fun s h1 h2 h3 => ⟨h1, h2, h3⟩
  | cons f rest ih =>
    intro s h1 h2 h3
    by_cases hnext : s.has_next = false
    · have hr : runPages env cfg existing_state (f :: rest) s = s := by
        unfold runPages
        rw [if_pos hnext]
      rw [hr]
      exact ⟨h1, h2, h3⟩
    · have hc : s.completed_successfully = false := by
        cases hcs : s.completed_successfully
        · rfl
        · exact absurd (h1 hcs) hnext
      cases f with
      | failed =>
        have hr : runPages env cfg existing_state (FetchResult.failed :: rest) s =
            { s with graphql_had_errors := true
                     graphql_error_count := s.graphql_error_count + 1 } := by
          unfold runPages
          rw [if_neg hnext]
        rw [hr]
        exact ⟨h1, h2, h3⟩
      | ok d =>
        have hr : runPages env cfg existing_state (FetchResult.ok d :: rest) s =
            runPages env cfg existing_state rest
              (stepPage env cfg existing_state s d) := by
          conv_lhs => unfold runPages
          rw [if_neg hnext]
        rw [hr]
        refine ih (stepPage env cfg existing_state s d) ?_ ?_ ?_
        · intro hcomp
          rw [stepPage_completed] at hcomp
          rw [stepPage_has_next]
          cases hnp : d.pageInfo.hasNextPage
          · rfl
          · rw [hnp] at hcomp
            simp only [if_true] at hcomp
            rw [hcomp] at hc
            cases hc
        · rw [stepPage_stored, stepPage_completed, stepPage_pages,
            last_processed_cursor_concat]
          cases hnp : d.pageInfo.hasNextPage
          · simp
          · simp [hc]
        · rw [stepPage_after, stepPage_pages, last_processed_cursor_concat]

/-- C4: the persisted cursor is written immediately after each
successfully processed page (and before the next fetch, as the loop
recursion shows), is never touched by a failed fetch, is cleared
exactly when the source reports no next page, and at every observation
point equals the continuation token of the last fully processed page —
or null after natural completion. -/
theorem cursor_persistence_spec (env : ScanEnv) (cfg : Config)
    (existing_state : List (String × SnapEntry)) (saved : Option String)
    (fetches : List FetchResult) :
    ((runPages env cfg existing_state fetches (initState saved)).stored_cursor =
      if (runPages env cfg existing_state fetches
          (initState saved)).completed_successfully then none
      else last_processed_cursor saved
        (runPages env cfg existing_state fetches (initState saved)).processed_pages)
    ∧ (∀ (s : ScanState) (rest : List FetchResult),
        (runPages env cfg existing_state (FetchResult.failed :: rest) s).stored_cursor =
          s.stored_cursor)
    ∧ (∀ (s : ScanState) (d : GqlData) (rest : List FetchResult),
        s.has_next = true →
        runPages env cfg existing_state (FetchResult.ok d :: rest) s =
          runPages env cfg existing_state rest (stepPage env cfg existing_state s d))
    ∧ (∀ (s : ScanState) (d : GqlData),
        (stepPage env cfg existing_state s d).stored_cursor =
          if d.pageInfo.hasNextPage then d.pageInfo.endCursor else none)
    ∧ (∀ (s : ScanState) (d : GqlData),
        (d.pageInfo.hasNextPage = true → d.pageInfo.endCursor ≠ none) →
        ((stepPage env cfg existing_state s d).stored_cursor = none ↔
          d.pageInfo.hasNextPage = false)) := by
  refine ⟨?_, ?_, ?_, ?_, ?_⟩
  · exact (runPages_cursor_invariant env cfg existing_state saved fetches
      (initState saved) (by intro h; simp [initState] at h) rfl rfl).2.1
  · intro s rest
    unfold runPages
    split
    · rfl
    · rfl
  · intro s d rest hnext
    conv_lhs => unfold runPages
    rw [if_neg (by simp [hnext])]
  · exact fun s d => stepPage_stored env cfg existing_state s d
  · intro s d hwf
    rw [stepPage_stored]
    cases hnp : d.pageInfo.hasNextPage
    · simp
    · simp only [if_true]
      constructor
      · intro hnone
        exact absurd hnone (hwf hnp)
      · intro hfalse
        cases hfalse

/-- A concrete page with a next-page token. -/
def pageC : GqlData :=
  { nodes := [], pageInfo := { hasNextPage := true, endCursor := some "c1" } }

theorem cursor_persistence_spec_witness :
    ((stepPage (envAt 0) defaultConfig [] (initState none) pageC).stored_cursor =
        none ↔ pageC.pageInfo.hasNextPage = false)
    ∧ (stepPage (envAt 0) defaultConfig [] (initState none) pageC).stored_cursor =
        (if pageC.pageInfo.hasNextPage then pageC.pageInfo.endCursor else none) := by
  have h := cursor_persistence_spec (envAt 0) defaultConfig [] none []
  exact ⟨h.2.2.2.2 (initState none) pageC (fun _ => by simp [pageC]),
    h.2.2.2.1 (initState none) pageC⟩

/-! ### C5 — error payloads and the retry loop -/

/-- An empty final page body. -/
def emptyData : GqlData :=
  { nodes := [], pageInfo := { hasNextPage := false, endCursor := none } }

/-- A response stream whose first attempt is a 200 reply with a GraphQL
`errors` key and whose second attempt is a clean 200 reply. -/
def errThenOkStream : Nat → AttemptResult := fun i =>
  if i = 1 then .http200 true emptyData else .http200 false emptyData

/-- C5 counterexample: a well-formed error payload does NOT abort the
fetch immediately — the `RuntimeError` raised for it is caught by the
same attempt loop's `except Exception` handler, so the page is
retried: with an error payload on attempt 1 and a clean reply on
attempt 2, `post_graphql_with_retry` consumes two attempts and returns
the second reply's data, and the scan carries on with that page rather
than aborting. -/
theorem error_payload_retried :
    errThenOkStream 1 = AttemptResult.http200 true emptyData
    ∧ post_graphql_with_retry errThenOkStream 8 ≠ (none, 1)
    ∧ post_graphql_with_retry errThenOkStream 8 = (some emptyData, 2)
    ∧ resolveFetch errThenOkStream 8 = FetchResult.ok emptyData := by
  refine ⟨rfl, by decide, by decide, by decide⟩

/-- Exhausting the attempt loop on retried outcomes: when every attempt
in the window yields an error payload, the loop consumes all its fuel
and returns `None`. -/
theorem post_graphql_go_all_errors (responses : Nat → AttemptResult) :
    ∀ (fuel attempt : Nat),
      (∀ i, attempt ≤ i → i < attempt + fuel →
        ∃ dd, responses i = AttemptResult.http200 true dd) →
      post_graphql_go responses attempt fuel = (none, attempt + fuel - 1) := by
  intro fuel
  induction fuel with
  | zero =>
    intro attempt h
    simp [post_graphql_go]
  | succ f ih =>
    intro attempt h
    obtain ⟨dd, hdd⟩ := h attempt (le_refl _) (by omega)
    unfold post_graphql_go
    rw [hdd]
    rw [ih (attempt + 1) (fun i h1 h2 => h i (by omega) (by omega))]
    have : attempt + 1 + f - 1 = attempt + (f + 1) - 1 := by omega
    rw [this]

/-- The scan loop on a failed fetch: flags the error and stops, leaving
everything else (both cursors included) untouched. -/
theorem runPages_failed_eq (env : ScanEnv) (cfg : Config)
    (ex : List (String × SnapEntry)) (s : ScanState)
    (rest : List FetchResult) (hnext : s.has_next = true) :
    runPages env cfg ex (FetchResult.failed :: rest) s =
      { s with graphql_had_errors := true
               graphql_error_count := s.graphql_error_count + 1 } := by
  conv_lhs => unfold runPages
  rw [if_neg (by simp [hnext])]

/-- C5 (amended): a well-formed error payload from the source is
retried like a transient failure, not fatal per attempt; when every
attempt for a page carries an error payload the fetch fails only after
all `MAX_GRAPHQL_RETRIES` attempts, and then the scan aborts with
`graphql_had_errors` set, the cursor preserved exactly as of the last
successful page, and the Deletion Guard skipped. -/
theorem error_payload_exhaustion_spec
    (responses : Nat → AttemptResult) (maxRetries : Nat)
    (herr : ∀ i, 1 ≤ i → i ≤ maxRetries →
      ∃ dd, responses i = AttemptResult.http200 true dd)
    (env : ScanEnv) (cfg : Config) (ex : List (String × SnapEntry))
    (s0 : ScanState) (rest : List FetchResult)
    (hnext : s0.has_next = true) :
    post_graphql_with_retry responses maxRetries = (none, maxRetries)
    ∧ resolveFetch responses maxRetries = FetchResult.failed
    ∧ (runPages env cfg ex (resolveFetch responses maxRetries :: rest)
        s0).stored_cursor = s0.stored_cursor
    ∧ (runPages env cfg ex (resolveFetch responses maxRetries :: rest)
        s0).after = s0.after
    ∧ (runPages env cfg ex (resolveFetch responses maxRetries :: rest)
        s0).graphql_had_errors = true
    ∧ (∀ (seen : List String) (st : List (String × SnapEntry)),
        deletion_phase cfg
          (runPages env cfg ex (resolveFetch responses maxRetries :: rest)
            s0).completed_successfully
          (runPages env cfg ex (resolveFetch responses maxRetries :: rest)
            s0).graphql_had_errors
          seen st = none) := by
  have hpost : post_graphql_with_retry responses maxRetries = (none, maxRetries) := by
    unfold post_graphql_with_retry
    rw [post_graphql_go_all_errors responses maxRetries 1
      (fun i h1 h2 => herr i h1 (by omega))]
    congr 1
    omega
  have hres : resolveFetch responses maxRetries = FetchResult.failed := by
    unfold resolveFetch
    rw [hpost]
  rw [hres, runPages_failed_eq env cfg ex s0 rest hnext]
  refine ⟨hpost, rfl, rfl, rfl, rfl, ?_⟩
  intro seen st
  unfold deletion_phase
  simp

/-- A stream of nothing but error payloads. -/
def allErrStream : Nat → AttemptResult := fun _ => .http200 true emptyData

theorem error_payload_exhaustion_spec_witness :
    post_graphql_with_retry allErrStream 8 = (none, 8)
    ∧ (runPages (envAt 0) defaultConfig []
        [resolveFetch allErrStream 8] (initState (some "cur"))).stored_cursor =
      some "cur"
    ∧ deletion_phase defaultConfig
        (runPages (envAt 0) defaultConfig []
          [resolveFetch allErrStream 8] (initState (some "cur"))).completed_successfully
        (runPages (envAt 0) defaultConfig []
          [resolveFetch allErrStream 8] (initState (some "cur"))).graphql_had_errors
        [] [] = none := by
  have h := error_payload_exhaustion_spec allErrStream 8
    (fun i h1 h2 => ⟨emptyData, rfl⟩) (envAt 0) defaultConfig []
    (initState (some "cur")) [] rfl
  exact ⟨h.1, h.2.2.1, h.2.2.2.2.2 [] []⟩

/-! ### C8 — the seen set and write failures (corrected)

The write-free lemmas below (`processNode_seen` …
`runPages_seen_invariant`) describe the scan under flushes that return.
The crash-aware lemmas that follow them re-establish the per-record
guarantees over the `…W` scan, where a flush crash aborts the loop. -/

theorem bumpStats_seen (acc : ScanAcc) (cls : Classification) :
    (bumpStats acc cls).seen_ids = acc.seen_ids := by
  cases cls <;> rfl

theorem flushIfFull_seen (cfg : Config) (acc : ScanAcc) :
    (flushIfFull cfg acc).seen_ids = acc.seen_ids := by
  simp only [flushIfFull]
  split <;> split <;> rfl

/-- The seen set after processing one node: the id is inserted exactly
when the capacity parses positive, whatever the classification, the
queues or the flushes do. -/
theorem processNode_seen (env : ScanEnv) (cfg : Config)
    (ex : List (String × SnapEntry)) (acc : ScanAcc) (node : Node) :
    (processNode env cfg ex acc node).seen_ids =
      match node.byg069Sikringsrumpladser with
      | none => acc.seen_ids
      | some c =>
        if c ≤ 0 then acc.seen_ids
        else setInsert acc.seen_ids node.id_lokalId := by
  rcases hcap : node.byg069Sikringsrumpladser with _ | c
  · simp [processNode, hcap]
  · simp only [processNode, hcap]
    split
    · rfl
    · split
      · simp [bumpStats_seen]
      · split <;> simp [flushIfFull_seen, bumpStats_seen]
      · simp [flushIfFull_seen, bumpStats_seen]

theorem processNode_seen_superset (env : ScanEnv) (cfg : Config)
    (ex : List (String × SnapEntry)) (acc : ScanAcc) (node : Node)
    (x : String) (hx : x ∈ acc.seen_ids) :
    x ∈ (processNode env cfg ex acc node).seen_ids := by
  rw [processNode_seen]
  rcases node.byg069Sikringsrumpladser with _ | c
  · exact hx
  · simp only
    split
    · exact hx
    · unfold setInsert
      split
      · exact hx
      · exact List.mem_cons_of_mem _ hx

theorem processNode_seen_self (env : ScanEnv) (cfg : Config)
    (ex : List (String × SnapEntry)) (acc : ScanAcc) (node : Node) (c : Int)
    (hc : node.byg069Sikringsrumpladser = some c) (hpos : 0 < c) :
    node.id_lokalId ∈ (processNode env cfg ex acc node).seen_ids := by
  rw [processNode_seen, hc]
  simp only
  rw [if_neg (by omega)]
  unfold setInsert
  split
  · assumption
  · exact List.mem_cons_self _ _

theorem foldl_processNode_superset (env : ScanEnv) (cfg : Config)
    (ex : List (String × SnapEntry)) (nodes : List Node) :
    ∀ (acc : ScanAcc) (x : String), x ∈ acc.seen_ids →
      x ∈ (nodes.foldl (processNode env cfg ex) acc).seen_ids := by
  induction nodes with
  | nil => exact fun acc x hx => hx
  | cons n ns ih =>
    intro acc x hx
    exact ih _ _ (processNode_seen_superset env cfg ex acc n x hx)

theorem foldl_processNode_mem (env : ScanEnv) (cfg : Config)
    (ex : List (String × SnapEntry)) (nodes : List Node) :
    ∀ (acc : ScanAcc), ∀ node ∈ nodes, ∀ c : Int,
      node.byg069Sikringsrumpladser = some c → 0 < c →
      node.id_lokalId ∈ (nodes.foldl (processNode env cfg ex) acc).seen_ids := by
  induction nodes with
  | nil =>
    intro acc node h
    cases h
  | cons n ns ih =>
    intro acc node hmem c hc hpos
    rcases List.mem_cons.mp hmem with rfl | hmem2
    · exact foldl_processNode_superset env cfg ex ns _ _
        (processNode_seen_self env cfg ex acc node c hc hpos)
    · exact ih _ node hmem2 c hc hpos

theorem stepPage_acc (env : ScanEnv) (cfg : Config)
    (ex : List (String × SnapEntry)) (s : ScanState) (d : GqlData) :
    (stepPage env cfg ex s d).acc =
      d.nodes.foldl (processNode env cfg ex) s.acc := by
  unfold stepPage
  split <;> rfl

theorem stepPage_nodes (env : ScanEnv) (cfg : Config)
    (ex : List (String × SnapEntry)) (s : ScanState) (d : GqlData) :
    (stepPage env cfg ex s d).processed_nodes =
      s.processed_nodes ++ d.nodes := by
  unfold stepPage
  split <;> rfl

/-- Loop invariant: every capacity-valid node of a processed page has
its id in the seen set. -/
theorem runPages_seen_invariant (env : ScanEnv) (cfg : Config)
    (ex : List (String × SnapEntry)) :
    ∀ (fetches : List FetchResult) (s : ScanState),
      (∀ node ∈ s.processed_nodes, ∀ c : Int,
        node.byg069Sikringsrumpladser = some c → 0 < c →
        node.id_lokalId ∈ s.acc.seen_ids) →
      ∀ node ∈ (runPages env cfg ex fetches s).processed_nodes, ∀ c : Int,
        node.byg069Sikringsrumpladser = some c → 0 < c →
        node.id_lokalId ∈ (runPages env cfg ex fetches s).acc.seen_ids := by
  intro fetches
  induction fetches with
  | nil => exact fun s h => h
  | cons f rest ih =>
    intro s hinv
    by_cases hnext : s.has_next = false
    · have hr : runPages env cfg ex (f :: rest) s = s := by
        unfold runPages
        rw [if_pos hnext]
      rw [hr]
      exact hinv
    · rw [Bool.not_eq_false] at hnext
      cases f with
      | failed =>
        rw [runPages_failed_eq env cfg ex s rest hnext]
        exact hinv
      | ok d =>
        have hr : runPages env cfg ex (FetchResult.ok d :: rest) s =
            runPages env cfg ex rest (stepPage env cfg ex s d) := by
          conv_lhs => unfold runPages
          rw [if_neg (by simp [hnext])]
        rw [hr]
        refine ih (stepPage env cfg ex s d) ?_
        intro node hmem c hc hpos
        rw [stepPage_nodes] at hmem
        rw [stepPage_acc]
        rcases List.mem_append.mp hmem with h1 | h2
        · exact foldl_processNode_superset env cfg ex d.nodes s.acc _
            (hinv node h1 c hc hpos)
        · exact foldl_processNode_mem env cfg ex d.nodes s.acc node h2 c hc hpos

/-- A successful `List.lookup` finds a genuine member. -/
theorem lookup_mem {l : List (String × SnapEntry)} {a : String} {e : SnapEntry}
    (h : l.lookup a = some e) : (a, e) ∈ l := by
  induction l with
  | nil => cases h
  | cons p ps ih =>
    obtain ⟨k, b⟩ := p
    by_cases hk : (a == k) = true
    · have hak : a = k := eq_of_beq hk
      simp only [List.lookup, hk] at h
      obtain rfl := Option.some.inj h
      subst hak
      exact List.mem_cons_self _ _
    · rw [Bool.not_eq_true] at hk
      simp only [List.lookup, hk] at h
      exact List.mem_cons_of_mem _ (ih h)

/-- A seen id's snapshot row is never collected for soft deletion
(internal ids assumed unique, as database primary keys are). -/
theorem seen_not_deleted (ex : List (String × SnapEntry)) (seen : List String)
    (bid : String) (e : SnapEntry)
    (hnodup : (ex.map fun p => p.2.id).Nodup)
    (hlook : ex.lookup bid = some e) (hseen : bid ∈ seen) :
    e.id ∉ to_delete ex seen := by
  intro hdel
  rw [mem_to_delete_iff] at hdel
  obtain ⟨p, hp, hpdel, hpseen, hpid⟩ := hdel
  have hmem : (bid, e) ∈ ex := lookup_mem hlook
  have hpe : p = (bid, e) :=
    List.inj_on_of_nodup_map hnodup hp hmem (by simpa using hpid)
  rw [hpe] at hpseen
  exact hpseen hseen

/-- Crash-aware variants of the seen-set lemmas. -/
theorem flushFullQueueW_frame (wenv : WriteEnv) (cfg : Config) (a : ScanAccW) :
    (flushFullQueueW wenv cfg a).core.seen_ids = a.core.seen_ids
    ∧ (flushFullQueueW wenv cfg a).touched_nodes = a.touched_nodes := by
  simp only [flushFullQueueW]
  split
  · split <;> exact ⟨rfl, rfl⟩
  · exact ⟨rfl, rfl⟩

theorem flushCoreQueueW_frame (wenv : WriteEnv) (cfg : Config) (a : ScanAccW) :
    (flushCoreQueueW wenv cfg a).core.seen_ids = a.core.seen_ids
    ∧ (flushCoreQueueW wenv cfg a).touched_nodes = a.touched_nodes := by
  simp only [flushCoreQueueW]
  split
  · split <;> exact ⟨rfl, rfl⟩
  · exact ⟨rfl, rfl⟩

theorem flushIfFullW_frame (wenv : WriteEnv) (cfg : Config) (a : ScanAccW) :
    (flushIfFullW wenv cfg a).core.seen_ids = a.core.seen_ids
    ∧ (flushIfFullW wenv cfg a).touched_nodes = a.touched_nodes := by
  simp only [flushIfFullW]
  split
  · exact flushFullQueueW_frame wenv cfg a
  · refine ⟨?_, ?_⟩
    · rw [(flushCoreQueueW_frame wenv cfg _).1, (flushFullQueueW_frame wenv cfg a).1]
    · rw [(flushCoreQueueW_frame wenv cfg _).2, (flushFullQueueW_frame wenv cfg a).2]

theorem processNodeW_crashed_id (env : ScanEnv) (cfg : Config) (wenv : WriteEnv)
    (ex : List (String × SnapEntry)) (a : ScanAccW) (node : Node)
    (h : a.crashed = true) :
    processNodeW env cfg wenv ex a node = a := by
  simp [processNodeW, h]

/-- The seen set after one crash-aware node step: inserted exactly when
the loop is live and the capacity parses positive — before and
regardless of the classification, the queueing and the write
outcomes. -/
theorem processNodeW_seen (env : ScanEnv) (cfg : Config) (wenv : WriteEnv)
    (ex : List (String × SnapEntry)) (a : ScanAccW) (node : Node)
    (hc : a.crashed = false) :
    (processNodeW env cfg wenv ex a node).core.seen_ids =
      match node.byg069Sikringsrumpladser with
      | none => a.core.seen_ids
      | some c =>
        if c ≤ 0 then a.core.seen_ids
        else setInsert a.core.seen_ids node.id_lokalId := by
  rcases hcap : node.byg069Sikringsrumpladser with _ | c
  · simp [processNodeW, hc, hcap]
  · simp only [processNodeW, hc, hcap, Bool.false_eq_true, if_false]
    split
    · rfl
    · split
      · simp [bumpStats_seen]
      · split <;> simp [(flushIfFullW_frame wenv cfg _).1, bumpStats_seen]
      · simp [(flushIfFullW_frame wenv cfg _).1, bumpStats_seen]

theorem processNodeW_touched (env : ScanEnv) (cfg : Config) (wenv : WriteEnv)
    (ex : List (String × SnapEntry)) (a : ScanAccW) (node : Node)
    (hc : a.crashed = false) :
    (processNodeW env cfg wenv ex a node).touched_nodes =
      a.touched_nodes ++ [node] := by
  rcases hcap : node.byg069Sikringsrumpladser with _ | c
  · simp [processNodeW, hc, hcap]
  · simp only [processNodeW, hc, hcap, Bool.false_eq_true, if_false]
    split
    · rfl
    · split
      · rfl
      · split <;> simp [(flushIfFullW_frame wenv cfg _).2]
      · simp [(flushIfFullW_frame wenv cfg _).2]

theorem processNodeW_seen_superset (env : ScanEnv) (cfg : Config)
    (wenv : WriteEnv) (ex : List (String × SnapEntry)) (a : ScanAccW)
    (node : Node) (x : String) (hx : x ∈ a.core.seen_ids) :
    x ∈ (processNodeW env cfg wenv ex a node).core.seen_ids := by
  by_cases h : a.crashed = true
  · rw [processNodeW_crashed_id env cfg wenv ex a node h]
    exact hx
  · rw [Bool.not_eq_true] at h
    rw [processNodeW_seen env cfg wenv ex a node h]
    rcases node.byg069Sikringsrumpladser with _ | c
    · exact hx
    · simp only
      split
      · exact hx
      · unfold setInsert
        split
        · exact hx
        · exact List.mem_cons_of_mem _ hx

/-- The per-accumulator invariant: every node whose loop body ran with a
positive parsed capacity has its id in the seen set. -/
def touchedSeen (a : ScanAccW) : Prop :=
  ∀ node ∈ a.touched_nodes, ∀ c : Int,
    node.byg069Sikringsrumpladser = some c → 0 < c →
    node.id_lokalId ∈ a.core.seen_ids

theorem processNodeW_touchedSeen (env : ScanEnv) (cfg : Config)
    (wenv : WriteEnv) (ex : List (String × SnapEntry)) (a : ScanAccW)
    (node : Node) (hinv : touchedSeen a) :
    touchedSeen (processNodeW env cfg wenv ex a node) := by
  by_cases h : a.crashed = true
  · rw [processNodeW_crashed_id env cfg wenv ex a node h]
    exact hinv
  · rw [Bool.not_eq_true] at h
    intro n hn c hcap hpos
    rw [processNodeW_touched env cfg wenv ex a node h] at hn
    rcases List.mem_append.mp hn with h1 | h2
    · exact processNodeW_seen_superset env cfg wenv ex a node n.id_lokalId
        (hinv n h1 c hcap hpos)
    · have heq : n = node := by simpa using h2
      subst heq
      rw [processNodeW_seen env cfg wenv ex a n h, hcap]
      simp only
      rw [if_neg (by omega)]
      unfold setInsert
      split
      · assumption
      · exact List.mem_cons_self _ _

theorem foldlW_seen_superset (env : ScanEnv) (cfg : Config) (wenv : WriteEnv)
    (ex : List (String × SnapEntry)) (nodes : List Node) :
    ∀ (a : ScanAccW) (x : String), x ∈ a.core.seen_ids →
      x ∈ (nodes.foldl (processNodeW env cfg wenv ex) a).core.seen_ids := by
  induction nodes with
  | nil => exact fun a x hx => hx
  | cons n ns ih =>
    intro a x hx
    exact ih _ _ (processNodeW_seen_superset env cfg wenv ex a n x hx)

theorem foldlW_touchedSeen (env : ScanEnv) (cfg : Config) (wenv : WriteEnv)
    (ex : List (String × SnapEntry)) (nodes : List Node) :
    ∀ (a : ScanAccW), touchedSeen a →
      touchedSeen (nodes.foldl (processNodeW env cfg wenv ex) a) := by
  induction nodes with
  | nil => exact fun a h => h
  | cons n ns ih =>
    intro a h
    exact ih _ (processNodeW_touchedSeen env cfg wenv ex a n h)

theorem stepPageW_accW (env : ScanEnv) (cfg : Config) (wenv : WriteEnv)
    (ex : List (String × SnapEntry)) (s : ScanStateW) (d : GqlData) :
    (stepPageW env cfg wenv ex s d).accW =
      d.nodes.foldl (processNodeW env cfg wenv ex) s.accW := by
  by_cases hcr : (d.nodes.foldl (processNodeW env cfg wenv ex) s.accW).crashed = true
  · simp [stepPageW, hcr]
  · simp only [stepPageW, hcr, Bool.false_eq_true, if_false]
    split <;> rfl

theorem runPagesW_touchedSeen (env : ScanEnv) (cfg : Config) (wenv : WriteEnv)
    (ex : List (String × SnapEntry)) :
    ∀ (fetches : List FetchResult) (s : ScanStateW), touchedSeen s.accW →
      touchedSeen (runPagesW env cfg wenv ex fetches s).accW := by
  intro fetches
  induction fetches with
  | nil => exact fun s h => h
  | cons f rest ih =>
    intro s hinv
    by_cases hnext : s.has_next = false
    · have hr : runPagesW env cfg wenv ex (f :: rest) s = s := by
        unfold runPagesW
        rw [if_pos hnext]
      rw [hr]
      exact hinv
    · cases f with
      | failed =>
        have hr : runPagesW env cfg wenv ex (FetchResult.failed :: rest) s =
            { s with graphql_had_errors := true
                     graphql_error_count := s.graphql_error_count + 1 } := by
          conv_lhs => unfold runPagesW
          rw [if_neg hnext]
        rw [hr]
        exact hinv
      | ok d =>
        have hstep : touchedSeen (stepPageW env cfg wenv ex s d).accW := by
          rw [stepPageW_accW]
          exact foldlW_touchedSeen env cfg wenv ex d.nodes s.accW hinv
        have hr : runPagesW env cfg wenv ex (FetchResult.ok d :: rest) s =
            (if (stepPageW env cfg wenv ex s d).accW.crashed then
              stepPageW env cfg wenv ex s d
            else runPagesW env cfg wenv ex rest (stepPageW env cfg wenv ex s d)) := by
          conv_lhs => unfold runPagesW
          rw [if_neg hnext]
        rw [hr]
        split
        · exact hstep
        · exact ih _ hstep

/-! #### The crash-aware scan refines the write-free scan

When no individual post raises without binding a response, the
line-681 crash is unreachable, and the `…W` scan is exactly the scan of
`runPages` with the flush results recorded alongside. -/

/-- Without a raised-and-unbound individual post the call cannot
crash. -/
theorem upsert_no_raise_crashed (wenv : WriteEnv)
    (hnr : ∀ item : QueuedWrite, wenv.singleOutcome item ≠ SingleOutcome.raised)
    (b : List QueuedWrite) :
    (upsert_to_supabase wenv b).crashed = false := by
  cases b with
  | nil => rfl
  | cons x xs =>
    simp only [upsert_to_supabase]
    split
    · rfl
    · exact (fallbackLoop_no_raise wenv (x :: xs) false fun item _ => hnr item).1

theorem flushIfFullW_core_nocrash (wenv : WriteEnv) (cfg : Config)
    (hnr : ∀ item : QueuedWrite, wenv.singleOutcome item ≠ SingleOutcome.raised)
    (a : ScanAccW) (hc : a.crashed = false) :
    (flushIfFullW wenv cfg a).core = flushIfFull cfg a.core
    ∧ (flushIfFullW wenv cfg a).crashed = false := by
  have hcr : ∀ q : List QueuedWrite,
      (upsert_to_supabase wenv q).crashed = false :=
    fun q => upsert_no_raise_crashed wenv hnr q
  by_cases hq1 : a.core.insert_queue_full.length ≥ cfg.BATCH_SIZE <;>
    by_cases hq2 : a.core.insert_queue_core.length ≥ cfg.BATCH_SIZE <;>
      constructor <;>
        simp [flushIfFullW, flushFullQueueW, flushCoreQueueW, flushIfFull,
          hcr, hq1, hq2, hc]

theorem processNodeW_core_nocrash (env : ScanEnv) (cfg : Config)
    (wenv : WriteEnv) (ex : List (String × SnapEntry))
    (hnr : ∀ item : QueuedWrite, wenv.singleOutcome item ≠ SingleOutcome.raised)
    (a : ScanAccW) (node : Node) (hc : a.crashed = false) :
    (processNodeW env cfg wenv ex a node).core =
      processNode env cfg ex a.core node
    ∧ (processNodeW env cfg wenv ex a node).crashed = false := by
  rcases hcap : node.byg069Sikringsrumpladser with _ | c
  · constructor
    · simp [processNodeW, processNode, hc, hcap]
    · simp [processNodeW, hc, hcap]
  · simp only [processNodeW, processNode, hc, hcap, Bool.false_eq_true, if_false]
    split
    · exact ⟨rfl, rfl⟩
    · split
      · exact ⟨rfl, rfl⟩
      · split
        · exact flushIfFullW_core_nocrash wenv cfg hnr _ rfl
        · exact flushIfFullW_core_nocrash wenv cfg hnr _ rfl
      · exact flushIfFullW_core_nocrash wenv cfg hnr _ rfl

theorem foldlW_core_nocrash (env : ScanEnv) (cfg : Config) (wenv : WriteEnv)
    (ex : List (String × SnapEntry))
    (hnr : ∀ item : QueuedWrite, wenv.singleOutcome item ≠ SingleOutcome.raised)
    (nodes : List Node) :
    ∀ a : ScanAccW, a.crashed = false →
      (nodes.foldl (processNodeW env cfg wenv ex) a).core =
        nodes.foldl (processNode env cfg ex) a.core
      ∧ (nodes.foldl (processNodeW env cfg wenv ex) a).crashed = false := by
  induction nodes with
  | nil => exact fun a h => ⟨rfl, h⟩
  | cons n ns ih =>
    intro a hc
    obtain ⟨h1, h2⟩ := processNodeW_core_nocrash env cfg wenv ex hnr a n hc
    obtain ⟨h3, h4⟩ := ih _ h2
    simp only [List.foldl_cons]
    refine ⟨h3.trans ?_, h4⟩
    rw [h1]

/-- The write-free projection of a crash-aware scan state. -/
def ScanStateW.proj (s : ScanStateW) : ScanState :=
  { after := s.after, stored_cursor := s.stored_cursor, has_next := s.has_next
    completed_successfully := s.completed_successfully
    graphql_had_errors := s.graphql_had_errors
    graphql_error_count := s.graphql_error_count
    page_index := s.page_index
    processed_pages := s.processed_pages
    processed_nodes := s.processed_nodes
    acc := s.accW.core }

theorem stepPageW_proj_nocrash (env : ScanEnv) (cfg : Config)
    (wenv : WriteEnv) (ex : List (String × SnapEntry))
    (hnr : ∀ item : QueuedWrite, wenv.singleOutcome item ≠ SingleOutcome.raised)
    (s : ScanStateW) (d : GqlData) (hc : s.accW.crashed = false) :
    ScanStateW.proj (stepPageW env cfg wenv ex s d) =
      stepPage env cfg ex (ScanStateW.proj s) d
    ∧ (stepPageW env cfg wenv ex s d).accW.crashed = false := by
  obtain ⟨h1, h2⟩ := foldlW_core_nocrash env cfg wenv ex hnr d.nodes s.accW hc
  constructor
  · simp only [stepPageW, stepPage, h2, Bool.false_eq_true, if_false]
    split
    · simp only [ScanStateW.proj, h1]
    · simp only [ScanStateW.proj, h1]
  · rw [stepPageW_accW]
    exact h2

/-- Refinement: under oracles where no individual post raises without a
response, the crash-aware scan is exactly the write-free scan of the
approved claims, flush results aside. -/
theorem runPagesW_proj (env : ScanEnv) (cfg : Config) (wenv : WriteEnv)
    (ex : List (String × SnapEntry))
    (hnr : ∀ item : QueuedWrite, wenv.singleOutcome item ≠ SingleOutcome.raised) :
    ∀ (fetches : List FetchResult) (s : ScanStateW), s.accW.crashed = false →
      ScanStateW.proj (runPagesW env cfg wenv ex fetches s) =
        runPages env cfg ex fetches (ScanStateW.proj s)
      ∧ (runPagesW env cfg wenv ex fetches s).accW.crashed = false := by
  intro fetches
  induction fetches with
  | nil => exact fun s h => ⟨rfl, h⟩
  | cons f rest ih =>
    intro s hc
    by_cases hnext : s.has_next = false
    · have hW : runPagesW env cfg wenv ex (f :: rest) s = s := by
        unfold runPagesW
        rw [if_pos hnext]
      have hF : runPages env cfg ex (f :: rest) (ScanStateW.proj s) =
          ScanStateW.proj s := by
        unfold runPages
        rw [if_pos (show (ScanStateW.proj s).has_next = false from hnext)]
      rw [hW, hF]
      exact ⟨rfl, hc⟩
    · cases f with
      | failed =>
        have hW : runPagesW env cfg wenv ex (FetchResult.failed :: rest) s =
            { s with graphql_had_errors := true
                     graphql_error_count := s.graphql_error_count + 1 } := by
          conv_lhs => unfold runPagesW
          rw [if_neg hnext]
        have hF : runPages env cfg ex (FetchResult.failed :: rest)
            (ScanStateW.proj s) =
            { ScanStateW.proj s with
                graphql_had_errors := true
                graphql_error_count := (ScanStateW.proj s).graphql_error_count + 1 } := by
          conv_lhs => unfold runPages
          rw [if_neg (show ¬(ScanStateW.proj s).has_next = false from hnext)]
        rw [hW, hF]
        exact ⟨rfl, hc⟩
      | ok d =>
        obtain ⟨h1, h2⟩ := stepPageW_proj_nocrash env cfg wenv ex hnr s d hc
        have hW : runPagesW env cfg wenv ex (FetchResult.ok d :: rest) s =
            runPagesW env cfg wenv ex rest (stepPageW env cfg wenv ex s d) := by
          conv_lhs => unfold runPagesW
          rw [if_neg hnext]
          show (if (stepPageW env cfg wenv ex s d).accW.crashed = true
              then stepPageW env cfg wenv ex s d
              else runPagesW env cfg wenv ex rest
                (stepPageW env cfg wenv ex s d)) =
            runPagesW env cfg wenv ex rest (stepPageW env cfg wenv ex s d)
          rw [if_neg (by simp [h2])]
        have hF : runPages env cfg ex (FetchResult.ok d :: rest)
            (ScanStateW.proj s) =
            runPages env cfg ex rest (stepPage env cfg ex (ScanStateW.proj s) d) := by
          conv_lhs => unfold runPages
          rw [if_neg (show ¬(ScanStateW.proj s).has_next = false from hnext)]
        rw [hW, hF, ← h1]
        exact ih _ h2

/-- The scan part of the run is the crash-aware page loop, whatever the
final flushes then do. -/
theorem syncRun_scan (env : ScanEnv) (cfg : Config) (wenv : WriteEnv)
    (ex : List (String × SnapEntry)) (saved : Option String)
    (fetches : List FetchResult) :
    (syncRun env cfg wenv ex saved fetches).scan =
      runPagesW env cfg wenv ex fetches (initStateW saved) := rfl

/-- The tail either aborts with no deletion, or ends without aborting
and with the deletion phase's verdict. -/
theorem syncTail_spec (env : ScanEnv) (cfg : Config) (wenv : WriteEnv)
    (ex : List (String × SnapEntry)) (s : ScanStateW) :
    ((syncTail env cfg wenv ex s).2.1 = true
      ∧ (syncTail env cfg wenv ex s).2.2.2 = none)
    ∨ ((syncTail env cfg wenv ex s).2.1 = false
      ∧ (syncTail env cfg wenv ex s).2.2.2 =
        deletion_phase cfg s.completed_successfully s.graphql_had_errors
          s.accW.core.seen_ids ex) := by
  simp only [syncTail]
  split
  · exact Or.inl ⟨rfl, rfl⟩
  · split
    · exact Or.inl ⟨rfl, rfl⟩
    · exact Or.inr ⟨rfl, rfl⟩

/-- An aborted run (final-flush crash escaping `sync()`) never reaches
the deletion phase. -/
theorem syncRun_aborted_no_deletion (env : ScanEnv) (cfg : Config)
    (wenv : WriteEnv) (ex : List (String × SnapEntry)) (saved : Option String)
    (fetches : List FetchResult)
    (h : (syncRun env cfg wenv ex saved fetches).aborted = true) :
    (syncRun env cfg wenv ex saved fetches).deletion = none := by
  rcases syncTail_spec env cfg wenv ex
      (runPagesW env cfg wenv ex fetches (initStateW saved)) with ⟨_, h2⟩ | ⟨h1, _⟩
  · exact h2
  · have hab : (syncRun env cfg wenv ex saved fetches).aborted = false := h1
    rw [hab] at h
    cases h

/-- When the run returns a deletion list, it is exactly `to_delete` of
the final seen set. -/
theorem syncRun_deletion_eq (env : ScanEnv) (cfg : Config) (wenv : WriteEnv)
    (ex : List (String × SnapEntry)) (saved : Option String)
    (fetches : List FetchResult) (l : List Int)
    (h : (syncRun env cfg wenv ex saved fetches).deletion = some l) :
    l = to_delete ex (syncRun env cfg wenv ex saved fetches).scan.accW.core.seen_ids := by
  rcases syncTail_spec env cfg wenv ex
      (runPagesW env cfg wenv ex fetches (initStateW saved)) with ⟨_, h2⟩ | ⟨_, h2⟩
  · have hd : (syncRun env cfg wenv ex saved fetches).deletion = none := h2
    rw [hd] at h
    cases h
  · have hd : (syncRun env cfg wenv ex saved fetches).deletion =
        deletion_phase cfg
          (runPagesW env cfg wenv ex fetches (initStateW saved)).completed_successfully
          (runPagesW env cfg wenv ex fetches (initStateW saved)).graphql_had_errors
          (runPagesW env cfg wenv ex fetches (initStateW saved)).accW.core.seen_ids
          ex := h2
    rw [hd] at h
    unfold deletion_phase at h
    split at h
    · exact (Option.some.inj h).symm
    · cases h

/-- Concrete objects for the C8 counterexample: two capacity-valid NEW
nodes on one final page, batch size 1 so the first node's write flushes
mid-page, and the crash-path oracles of `wenvRaiseC`. -/
def nodeX1 : Node :=
  { id_lokalId := "x1", byg069Sikringsrumpladser := some 5
    byg021BygningensAnvendelse := some "X", kommunekode := some "100"
    husnummer := none }

def nodeX2 : Node := { nodeX1 with id_lokalId := "x2" }

def pageX : GqlData :=
  { nodes := [nodeX1, nodeX2]
    pageInfo := { hasNextPage := false, endCursor := none } }

def cfgBatch1 : Config := { defaultConfig with BATCH_SIZE := 1 }

/-- Oracles under which every write succeeds. -/
def wenvAllOkC : WriteEnv :=
  { batchOk := fun _ => true
    singleOutcome := fun _ => SingleOutcome.ok
    rescueOk := fun _ => true }

/-- C8 counterexample: `nodeX2` passes the capacity filter, and with all
writes succeeding its id is in the seen set; but under the crash-path
write oracles the flush of `nodeX1`'s batch raises, the scan loop's
handler breaks the loop, and `nodeX2` — though delivered on the same
page — is never classified and never enters the seen set.  The seen set
therefore does depend on write outcomes, refuting the claim's universal
"added to the seen set before any write is attempted" for records after
the crash point. -/
theorem seen_set_dependence_counterexample :
    nodeX2.byg069Sikringsrumpladser = some 5
    ∧ "x2" ∈ (syncRun (envAt 0) cfgBatch1 wenvAllOkC [] none
        [FetchResult.ok pageX]).scan.accW.core.seen_ids
    ∧ "x2" ∉ (syncRun (envAt 0) cfgBatch1 wenvRaiseC [] none
        [FetchResult.ok pageX]).scan.accW.core.seen_ids
    ∧ (syncRun (envAt 0) cfgBatch1 wenvRaiseC [] none
        [FetchResult.ok pageX]).scan.accW.crashed = true
    ∧ (syncRun (envAt 0) cfgBatch1 wenvAllOkC [] none
          [FetchResult.ok pageX]).scan.accW.core.seen_ids ≠
        (syncRun (envAt 0) cfgBatch1 wenvRaiseC [] none
          [FetchResult.ok pageX]).scan.accW.core.seen_ids
    ∧ (syncRun (envAt 0) cfgBatch1 wenvRaiseC [] none
        [FetchResult.ok pageX]).aborted = true := by
  refine ⟨rfl, by decide, by decide, by decide, by decide, by decide⟩

/-- C8 (amended): for every record whose loop body the scan reaches
with a positive parsed capacity, the seen insertion happens first —
before classification and before any write of that record, and
unchanged by whatever the queues, flushes or write outcomes then do; no
write failure ever removes an id from the seen set (it only grows,
crash included); every reached capacity-valid record is in the final
seen set; an aborted run soft-deletes nothing; and a seen id's row is
never soft-deleted in the same run.  (Records a flush crash prevents
the loop from reaching are never added — see the counterexample — but
in such a run the Deletion Guard is skipped, so they are not
soft-deleted either.) -/
theorem seen_set_spec_amended (env : ScanEnv) (cfg : Config) (wenv : WriteEnv)
    (ex : List (String × SnapEntry)) (saved : Option String)
    (fetches : List FetchResult) :
    (∀ (a : ScanAccW) (node : Node) (c : Int),
        a.crashed = false →
        node.byg069Sikringsrumpladser = some c → 0 < c →
        (processNodeW env cfg wenv ex a node).core.seen_ids =
          setInsert a.core.seen_ids node.id_lokalId)
    ∧ (∀ (a : ScanAccW) (node : Node) (x : String),
        x ∈ a.core.seen_ids →
        x ∈ (processNodeW env cfg wenv ex a node).core.seen_ids)
    ∧ (∀ node ∈ (syncRun env cfg wenv ex saved fetches).scan.accW.touched_nodes,
        ∀ c : Int, node.byg069Sikringsrumpladser = some c → 0 < c →
        node.id_lokalId ∈
          (syncRun env cfg wenv ex saved fetches).scan.accW.core.seen_ids)
    ∧ ((syncRun env cfg wenv ex saved fetches).aborted = true →
        (syncRun env cfg wenv ex saved fetches).deletion = none)
    ∧ (∀ (bid : String) (e : SnapEntry),
        (ex.map fun p => p.2.id).Nodup →
        ex.lookup bid = some e →
        bid ∈ (syncRun env cfg wenv ex saved fetches).scan.accW.core.seen_ids →
        ∀ l, (syncRun env cfg wenv ex saved fetches).deletion = some l →
          e.id ∉ l) := by
  refine ⟨?_, ?_, ?_, ?_, ?_⟩
  · intro a node c hc hcap hpos
    rw [processNodeW_seen env cfg wenv ex a node hc, hcap]
    simp only
    rw [if_neg (by omega)]
  · exact fun a node x hx => processNodeW_seen_superset env cfg wenv ex a node x hx
  · intro node hmem c hcap hpos
    rw [syncRun_scan] at hmem ⊢
    refine runPagesW_touchedSeen env cfg wenv ex fetches (initStateW saved)
      ?_ node hmem c hcap hpos
    intro n hn
    cases hn
  · exact syncRun_aborted_no_deletion env cfg wenv ex saved fetches
  · intro bid e hnodup hlook hseen l hdel
    rw [syncRun_deletion_eq env cfg wenv ex saved fetches l hdel]
    exact seen_not_deleted ex _ bid e hnodup hlook hseen

theorem seen_set_spec_amended_witness :
    (processNodeW (envAt 0) defaultConfig wenvAllOkC [] initAccW nodeA).core.seen_ids =
      setInsert initAccW.core.seen_ids nodeA.id_lokalId :=
  (seen_set_spec_amended (envAt 0) defaultConfig wenvAllOkC [] none []).1
    initAccW nodeA 5 rfl rfl (by norm_num)

end ShelterSync
